import Mathlib

/-!
Verification development for the TRACKS audio-event emitter.

The C++ sources are shallowly embedded: C++ `double` values are modelled as
exact rationals (`ℚ`), machine integers as `ℤ`/`ℕ` (with explicit mod-2^64
arithmetic where `size_t` wraparound matters), the protobuf `Envelope` as an
inductive payload type, and the shared analysis `Pool` as a record of optional
typed arrays (the arrays are produced by the external essentia extraction
toolkit, which is out of scope, so they are universally quantified inputs).
`std::sort` is modelled relationally: the C++ standard only guarantees that
the output is a permutation of the input that is non-decreasing under the
comparator; the order of equivalent elements is unspecified.
-/

namespace Tracks

/-- The `EventType` enumeration from events.h (all supported event types). -/
inductive EventType where
  | TRACK_START | TRACK_END | TRACK_POSITION | TRACK_ABORT
  | BEAT | TEMPO_CHANGE | DOWNBEAT
  | ONSET | ONSET_RATE | NOVELTY
  | KEY_CHANGE | CHORD_CHANGE | CHROMA | TUNING | DISSONANCE | INHARMONICITY
  | PITCH | PITCH_CHANGE | MELODY
  | LOUDNESS | LOUDNESS_PEAK | ENERGY | DYNAMIC_CHANGE
  | SILENCE_START | SILENCE_END | GAP
  | SPECTRAL_CENTROID | SPECTRAL_FLUX | SPECTRAL_COMPLEXITY
  | SPECTRAL_CONTRAST | SPECTRAL_ROLLOFF | MFCC | TIMBRE_CHANGE
  | BANDS_MEL | BANDS_BARK | BANDS_ERB | HFC
  | SEGMENT_BOUNDARY | FADE_IN | FADE_OUT
  | CLICK | DISCONTINUITY | NOISE_BURST | SATURATION | HUM
  | ENVELOPE | ATTACK | DECAY
  deriving DecidableEq, Repr

/-- Embedding of `is_transport_event` from events.cpp: the four transport types. -/
def is_transport_event : EventType → Bool
  | .TRACK_START => true
  | .TRACK_END => true
  | .TRACK_POSITION => true
  | .TRACK_ABORT => true
  | _ => false

/-- Embedding of `EventFilter` = `std::set<EventType>`: a finite set of event types. -/
abbrev EventFilter := Finset EventType

/-- The static name table `all_entries()` from events.cpp. -/
def all_entries : List (String × EventType) :=
  [("track.start", .TRACK_START), ("track.end", .TRACK_END),
   ("track.position", .TRACK_POSITION), ("track.abort", .TRACK_ABORT),
   ("beat", .BEAT), ("tempo.change", .TEMPO_CHANGE), ("downbeat", .DOWNBEAT),
   ("onset", .ONSET), ("onset.rate", .ONSET_RATE), ("novelty", .NOVELTY),
   ("key.change", .KEY_CHANGE), ("chord.change", .CHORD_CHANGE),
   ("chroma", .CHROMA), ("tuning", .TUNING), ("dissonance", .DISSONANCE),
   ("inharmonicity", .INHARMONICITY),
   ("pitch", .PITCH), ("pitch.change", .PITCH_CHANGE), ("melody", .MELODY),
   ("loudness", .LOUDNESS), ("loudness.peak", .LOUDNESS_PEAK),
   ("energy", .ENERGY), ("dynamic.change", .DYNAMIC_CHANGE),
   ("silence.start", .SILENCE_START), ("silence.end", .SILENCE_END), ("gap", .GAP),
   ("spectral.centroid", .SPECTRAL_CENTROID), ("spectral.flux", .SPECTRAL_FLUX),
   ("spectral.complexity", .SPECTRAL_COMPLEXITY),
   ("spectral.contrast", .SPECTRAL_CONTRAST),
   ("spectral.rolloff", .SPECTRAL_ROLLOFF), ("mfcc", .MFCC),
   ("timbre.change", .TIMBRE_CHANGE),
   ("bands.mel", .BANDS_MEL), ("bands.bark", .BANDS_BARK),
   ("bands.erb", .BANDS_ERB), ("hfc", .HFC),
   ("segment.boundary", .SEGMENT_BOUNDARY), ("fade.in", .FADE_IN),
   ("fade.out", .FADE_OUT),
   ("click", .CLICK), ("discontinuity", .DISCONTINUITY),
   ("noise.burst", .NOISE_BURST), ("saturation", .SATURATION), ("hum", .HUM),
   ("envelope", .ENVELOPE), ("attack", .ATTACK), ("decay", .DECAY)]

/-- Embedding of `event_name_map()` lookup: name → event type (names are unique in the table). -/
def event_name_lookup (s : String) : Option EventType :=
  (all_entries.find? (fun p => p.1 = s)).map (fun p => p.2)

/-- Whitespace characters trimmed by `parse_event_filter` (space and tab,
per `find_first_not_of(" \t")`). -/
def isSpaceTab (c : Char) : Bool := c = ' ' ∨ c = '\t'

/-- Comma splitting of a character list (the effect of the `std::getline`
loop, which yields the maximal comma-free chunks). -/
def split_commas : List Char → List (List Char)
  | [] => [[]]
  | c :: rest =>
    if c = ',' then [] :: split_commas rest
    else
      match split_commas rest with
      | [] => [[c]]
      | t :: ts => (c :: t) :: ts

/-- The whitespace trim inside the `parse_event_filter` token loop. -/
def trim_chars (l : List Char) : List Char :=
  ((l.dropWhile isSpaceTab).reverse.dropWhile isSpaceTab).reverse

/-- The token stream `parse_event_filter` sees: split the csv string on commas
and trim each token.  Tokens that are entirely whitespace are skipped by the
`start == npos → continue` branch; `std::getline` differs from `split_commas`
only in the empty tokens the latter yields for an empty input or a trailing
comma, and those are exactly the tokens this filter removes. -/
def split_tokens (csv : String) : List String :=
  ((split_commas csv.toList).map (fun cs => String.mk (trim_chars cs))).filter
    (fun t => t ≠ "")

/-- One iteration of the `parse_event_filter` while-loop on a trimmed,
non-empty token.  The state is the filter built so far together with the
number of warnings printed to stderr (unknown name, or transport name). -/
def parse_step (acc : EventFilter × Nat) (token : String) : EventFilter × Nat :=
  match event_name_lookup token with
  | none => (acc.1, acc.2 + 1)
  | some t =>
    if is_transport_event t then (acc.1, acc.2 + 1)
    else (insert t acc.1, acc.2)

/-- Embedding of `parse_event_filter` from events.cpp: the returned set. -/
def parse_event_filter (csv : String) : EventFilter :=
  ((split_tokens csv).foldl parse_step (∅, 0)).1

/-- Number of warnings `parse_event_filter` prints while parsing `csv`. -/
def parse_warning_count (csv : String) : Nat :=
  ((split_tokens csv).foldl parse_step (∅, 0)).2

/-- Whether `parse_event_filter` skips a (trimmed, non-empty) token with a
warning: the token is not a known event name, or names a transport event. -/
def token_skipped (tok : String) : Bool :=
  match event_name_lookup tok with
  | none => true
  | some t => is_transport_event t

/-- The discriminated protobuf `Envelope` payload (tracks.proto), restricted
to the variants the analyzer and emitter actually construct.  Floating-point
fields are exact rationals.  `timbreChange` carries the squared euclidean
distance (the C++ stores its square root; the emission test `dist > 50` is
modelled equivalently as `distSq > 2500` to stay inside `ℚ`). -/
inductive EventPayload where
  | trackStart (filename : String) (duration : ℚ) (sampleRate : ℤ) (channels : ℤ)
  | trackEnd
  | trackPosition (position : ℚ)
  | trackAbort (reason : String)
  | beat (confidence : ℚ)
  | onset (strength : ℚ)
  | silenceStart
  | silenceEnd
  | gap (duration : ℚ)
  | loudness (value : ℚ)
  | loudnessPeak (value : ℚ)
  | dynamicChange (magnitude : ℚ)
  | energy (value : ℚ)
  | spectralCentroid (value : ℚ)
  | spectralFlux (value : ℚ)
  | spectralComplexity (value : ℚ)
  | spectralContrast (values : List ℚ)
  | spectralRolloff (value : ℚ)
  | hfc (value : ℚ)
  | mfcc (values : List ℚ)
  | timbreChange (distSq : ℚ)
  | bandsMel (values : List ℚ)
  | bandsBark (values : List ℚ)
  | bandsErb (values : List ℚ)
  | chroma (values : List ℚ)
  | keyChange (key scale : String) (strength : ℚ)
  | chordChange (chord : String) (strength : ℚ)
  | dissonance (value : ℚ)
  | inharmonicity (value : ℚ)
  | pitch (frequency confidence : ℚ)
  | pitchChange (fromHz toHz : ℚ)
  | melody (frequency : ℚ)
  | segmentBoundary
  deriving DecidableEq, Repr

/-- The `EventType` a payload variant belongs to. -/
def event_type_of : EventPayload → EventType
  | .trackStart _ _ _ _ => .TRACK_START
  | .trackEnd => .TRACK_END
  | .trackPosition _ => .TRACK_POSITION
  | .trackAbort _ => .TRACK_ABORT
  | .beat _ => .BEAT
  | .onset _ => .ONSET
  | .silenceStart => .SILENCE_START
  | .silenceEnd => .SILENCE_END
  | .gap _ => .GAP
  | .loudness _ => .LOUDNESS
  | .loudnessPeak _ => .LOUDNESS_PEAK
  | .dynamicChange _ => .DYNAMIC_CHANGE
  | .energy _ => .ENERGY
  | .spectralCentroid _ => .SPECTRAL_CENTROID
  | .spectralFlux _ => .SPECTRAL_FLUX
  | .spectralComplexity _ => .SPECTRAL_COMPLEXITY
  | .spectralContrast _ => .SPECTRAL_CONTRAST
  | .spectralRolloff _ => .SPECTRAL_ROLLOFF
  | .hfc _ => .HFC
  | .mfcc _ => .MFCC
  | .timbreChange _ => .TIMBRE_CHANGE
  | .bandsMel _ => .BANDS_MEL
  | .bandsBark _ => .BANDS_BARK
  | .bandsErb _ => .BANDS_ERB
  | .chroma _ => .CHROMA
  | .keyChange _ _ _ => .KEY_CHANGE
  | .chordChange _ _ => .CHORD_CHANGE
  | .dissonance _ => .DISSONANCE
  | .inharmonicity _ => .INHARMONICITY
  | .pitch _ _ => .PITCH
  | .pitchChange _ _ => .PITCH_CHANGE
  | .melody _ => .MELODY
  | .segmentBoundary => .SEGMENT_BOUNDARY

/-- Whether a payload is a `track.start` envelope. -/
def is_track_start : EventPayload → Bool
  | .trackStart _ _ _ _ => true
  | _ => false

/-- Embedding of `TimelineEvent` from events.h: timestamp in seconds plus the (here:
structured rather than serialized) envelope. -/
structure TimelineEvent where
  timestamp : ℚ
  payload : EventPayload
  deriving DecidableEq, Repr

/-- Embedding of `Timeline` = `std::vector<TimelineEvent>`. -/
abbrev Timeline := List TimelineEvent

/-- The run configuration (config.h, plus the emitter/transport fields
`prepare_time`, `enable_unicast`, `unicast_target` used by emitter.cpp and
transport.cpp).  It is immutable for the run. -/
structure Config where
  multicast_group : String
  port : ℤ
  ttl : ℤ
  loopback : Bool
  interface : String
  sample_rate : ℤ
  frame_size : ℤ
  hop_size : ℤ
  position_interval : ℚ
  enabled_events : EventFilter
  continuous_interval : ℚ
  input_file : String
  prepare_time : ℚ
  enable_unicast : Bool
  unicast_target : String

/-- The shared result store ("Pool"): one optional typed array per key the
builders read.  `none` models a key that was never written (`pool.contains`
is false).  The arrays themselves come from the external essentia extraction
passes and are therefore unconstrained inputs.  The silence start/stop frames
and the SBic segmentation are stored as the integers the code casts them to
(`static_cast<int>`; the algorithms emit integral frame indices). -/
structure PoolData where
  rhythm_ticks : Option (List ℚ) := none
  rhythm_confidence : Option (List ℚ) := none
  rhythm_onsetTimes : Option (List ℚ) := none
  silence_startFrame : Option (List ℤ) := none
  silence_stopFrame : Option (List ℤ) := none
  loudness_values : Option (List ℚ) := none
  energy_values : Option (List ℚ) := none
  spectral_centroid : Option (List ℚ) := none
  spectral_flux : Option (List ℚ) := none
  spectral_complexity : Option (List ℚ) := none
  spectral_contrast : Option (List (List ℚ)) := none
  spectral_rolloff : Option (List ℚ) := none
  spectral_hfc : Option (List ℚ) := none
  spectral_mfcc : Option (List (List ℚ)) := none
  bands_mel : Option (List (List ℚ)) := none
  bands_bark : Option (List (List ℚ)) := none
  bands_erb : Option (List (List ℚ)) := none
  tonal_hpcp : Option (List (List ℚ)) := none
  tonal_key : Option (List String) := none
  tonal_scale : Option (List String) := none
  tonal_keyStrength : Option (List ℚ) := none
  tonal_chords : Option (List String) := none
  tonal_chordStrength : Option (List ℚ) := none
  tonal_dissonance : Option (List ℚ) := none
  tonal_inharmonicity : Option (List ℚ) := none
  pitch_values : Option (List ℚ) := none
  pitch_confidence : Option (List ℚ) := none
  melody_pitch : Option (List (List ℚ)) := none
  sbic_segmentation : List ℤ := []

/-- Embedding of `frame_to_time` from the analyzer: frameIndex × hopSize / sampleRate. -/
def frame_to_time (frame_idx hop_size sample_rate : ℤ) : ℚ :=
  (frame_idx : ℚ) * (hop_size : ℚ) / (sample_rate : ℚ)

/-- Embedding of the `*std::max_element(...)` call on a non-empty vector (0 for the empty one,
which every caller excludes). -/
def max_element : List ℚ → ℚ
  | [] => 0
  | x :: xs => xs.foldl max x

/-- Squared euclidean distance over the common prefix of two vectors
(the C++ sums over `j < min(size, size)`). -/
def sq_dist (a b : List ℚ) : ℚ :=
  (a.zip b).foldl (fun acc p => acc + (p.1 - p.2) * (p.1 - p.2)) 0

/-- A C-style indexed `for` loop with early `break` and loop-carried state:
iteration `i` receives state `s`; `none` models `break`, `some (es, s2)`
appends the events `es` and continues with state `s2`.  `fuel` is the number
of remaining iterations (`n - i` for a loop bounded by `i < n`). -/
def indexedLoop {σ : Type} (step : Nat → σ → Option (Timeline × σ)) :
    Nat → Nat → σ → Timeline
  | 0, _, _ => []
  | fuel + 1, i, s =>
    match step i s with
    | none => []
    | some (es, s2) => es ++ indexedLoop step fuel (i + 1) s2

/-- Run an indexed loop for `i = start, …, n-1`. -/
def runLoopFrom {σ : Type} (n start : Nat) (step : Nat → σ → Option (Timeline × σ))
    (s0 : σ) : Timeline :=
  indexedLoop step (n - start) start s0

/-- One iteration of the throttled continuous-sampling loop: stop (`none`)
once the frame time exceeds `duration`, emit only when at least `interval`
has passed since the last emission. -/
def throttle_step (hop_size sample_rate : ℤ) (interval duration : ℚ)
    (pf : Nat → EventPayload) (i : Nat) (last : ℚ) : Option (Timeline × ℚ) :=
  let t := frame_to_time (i : ℤ) hop_size sample_rate
  if t > duration then none
  else if t - last ≥ interval then some ([⟨t, pf i⟩], t)
  else some ([], last)

/-- The throttled continuous-sampling loop shared by
`build_throttled_real_events`, `build_throttled_vector_events`,
`build_energy_events` and the melody loop: walk frames in order, stop once
the frame time exceeds `duration`, and emit only when at least `interval`
has passed since the last emission (`last_emit` starts at `-interval`, so
frame 0 always qualifies). -/
def throttle_loop (n : Nat) (hop_size sample_rate : ℤ) (interval duration : ℚ)
    (pf : Nat → EventPayload) : Timeline :=
  runLoopFrom n 0 (throttle_step hop_size sample_rate interval duration pf)
    (-interval)

/-- Embedding of `build_beat_events`: one BEAT event per tick, timestamp = the tick's own
time; missing trailing confidences are absent fields (protobuf default 0). -/
def build_beat_events (pool : PoolData) (filter : EventFilter) : Timeline :=
  if EventType.BEAT ∉ filter then []
  else
    match pool.rhythm_ticks with
    | none => []
    | some ticks =>
      let confidences := pool.rhythm_confidence.getD []
      (List.range ticks.length).map (fun i =>
        let t := ticks.getD i 0
        ⟨t, .beat (confidences.getD i 0)⟩)

/-- Embedding of `build_onset_events`: one ONSET event per onset time, strength 1.0. -/
def build_onset_events (pool : PoolData) (filter : EventFilter) : Timeline :=
  if EventType.ONSET ∉ filter then []
  else
    match pool.rhythm_onsetTimes with
    | none => []
    | some onsets =>
      (List.range onsets.length).map (fun i => ⟨onsets.getD i 0, .onset 1⟩)

/-- Embedding of `build_silence_events`: from the last reported first-silence→sound frame
and last sound→silence frame; leading block if `startFrame > 0` and
`startTime > 0.05`, trailing block if `stopTime < duration - 0.05`, each
event additionally gated on its own filter membership. -/
def build_silence_events (pool : PoolData) (filter : EventFilter) (cfg : Config)
    (duration : ℚ) : Timeline :=
  if ¬(EventType.SILENCE_START ∈ filter ∨ EventType.SILENCE_END ∈ filter ∨
        EventType.GAP ∈ filter) then []
  else
    match pool.silence_startFrame, pool.silence_stopFrame with
    | some starts, some stops =>
      if starts = [] ∨ stops = [] then []
      else
        let startFrame := (starts.getLast?).getD 0
        let stopFrame := (stops.getLast?).getD 0
        let startTime := frame_to_time startFrame cfg.hop_size cfg.sample_rate
        let stopTime := frame_to_time stopFrame cfg.hop_size cfg.sample_rate
        (if startFrame > 0 ∧ startTime > 1/20 then
          (if EventType.SILENCE_START ∈ filter then [⟨0, .silenceStart⟩] else []) ++
          (if EventType.SILENCE_END ∈ filter then [⟨startTime, .silenceEnd⟩] else []) ++
          (if EventType.GAP ∈ filter then [⟨0, .gap startTime⟩] else [])
        else []) ++
        (if stopTime < duration - 1/20 then
          (if EventType.SILENCE_START ∈ filter then [⟨stopTime, .silenceStart⟩] else []) ++
          (if EventType.SILENCE_END ∈ filter then [⟨duration, .silenceEnd⟩] else []) ++
          (if EventType.GAP ∈ filter then [⟨stopTime, .gap (duration - stopTime)⟩] else [])
        else [])
    | _, _ => []

/-- Embedding of `build_loudness_events`: one frame walk that interleaves the throttled
LOUDNESS stream, LOUDNESS_PEAK (strict local maximum ≥ 0.9 × global max) and
DYNAMIC_CHANGE (|Δ| > 0.3 × global max, threshold must be positive). -/
def build_loudness_events (pool : PoolData) (filter : EventFilter) (cfg : Config)
    (duration : ℚ) : Timeline :=
  let want_loudness := EventType.LOUDNESS ∈ filter
  let want_peak := EventType.LOUDNESS_PEAK ∈ filter
  let want_dynamic := EventType.DYNAMIC_CHANGE ∈ filter
  if ¬(want_loudness ∨ want_peak ∨ want_dynamic) then []
  else
    match pool.loudness_values with
    | none => []
    | some values =>
      if values = [] then []
      else
        let interval := cfg.continuous_interval
        let max_loudness := max_element values
        let peak_threshold := max_loudness * (9/10)
        let mag_thresh := max_loudness * (3/10)
        runLoopFrom values.length 0
          (fun i last =>
            let t := frame_to_time (i : ℤ) cfg.hop_size cfg.sample_rate
            if t > duration then none
            else
              let vi := values.getD i 0
              let emitL : Bool := want_loudness ∧ t - last ≥ interval
              let evL : Timeline := if emitL then [⟨t, .loudness vi⟩] else []
              let evP : Timeline :=
                if want_peak ∧ 0 < i ∧ i < values.length - 1 ∧
                    vi > values.getD (i - 1) 0 ∧ vi > values.getD (i + 1) 0 ∧
                    vi ≥ peak_threshold
                then [⟨t, .loudnessPeak vi⟩] else []
              let evD : Timeline :=
                if want_dynamic ∧ 0 < i ∧ mag_thresh > 0 ∧
                    |vi - values.getD (i - 1) 0| > mag_thresh
                then [⟨t, .dynamicChange |vi - values.getD (i - 1) 0|⟩] else []
              some (evL ++ evP ++ evD, if emitL then t else last))
          (-interval)

/-- Embedding of `build_energy_events`: the throttled ENERGY stream. -/
def build_energy_events (pool : PoolData) (filter : EventFilter) (cfg : Config)
    (duration : ℚ) : Timeline :=
  if EventType.ENERGY ∉ filter then []
  else
    match pool.energy_values with
    | none => []
    | some values =>
      if values = [] then []
      else
        throttle_loop values.length cfg.hop_size cfg.sample_rate
          cfg.continuous_interval duration (fun i => .energy (values.getD i 0))

/-- Embedding of `build_throttled_real_events`: generic throttled stream over a pool key
holding one scalar per frame. -/
def build_throttled_real_events (vals : Option (List ℚ)) (cfg : Config)
    (duration : ℚ) (mk : ℚ → EventPayload) : Timeline :=
  match vals with
  | none => []
  | some values =>
    if values = [] then []
    else
      throttle_loop values.length cfg.hop_size cfg.sample_rate
        cfg.continuous_interval duration (fun i => mk (values.getD i 0))

/-- Embedding of `build_throttled_vector_events`: generic throttled stream over a pool key
holding one vector per frame. -/
def build_throttled_vector_events (vals : Option (List (List ℚ))) (cfg : Config)
    (duration : ℚ) (mk : List ℚ → EventPayload) : Timeline :=
  match vals with
  | none => []
  | some frames =>
    if frames = [] then []
    else
      throttle_loop frames.length cfg.hop_size cfg.sample_rate
        cfg.continuous_interval duration (fun i => mk (frames.getD i []))

/-- The TIMBRE_CHANGE loop inside `build_spectral_events`: walk MFCC frames
from index 1 and emit when the euclidean distance between consecutive vectors
exceeds 50 (modelled as squared distance > 2500). -/
def build_timbre_events (pool : PoolData) (filter : EventFilter) (cfg : Config)
    (duration : ℚ) : Timeline :=
  if EventType.TIMBRE_CHANGE ∉ filter then []
  else
    match pool.spectral_mfcc with
    | none => []
    | some mfccs =>
      runLoopFrom mfccs.length 1
        (fun i (_ : Unit) =>
          let t := frame_to_time (i : ℤ) cfg.hop_size cfg.sample_rate
          if t > duration then none
          else
            let dsq := sq_dist (mfccs.getD i []) (mfccs.getD (i - 1) [])
            if dsq > 2500 then some ([⟨t, .timbreChange dsq⟩], ())
            else some ([], ()))
        ()

/-- Embedding of `build_spectral_events`: the filter-gated throttled spectral streams in
source order, then the TIMBRE_CHANGE loop. -/
def build_spectral_events (pool : PoolData) (filter : EventFilter) (cfg : Config)
    (duration : ℚ) : Timeline :=
  (if EventType.SPECTRAL_CENTROID ∈ filter then
    build_throttled_real_events pool.spectral_centroid cfg duration .spectralCentroid
  else []) ++
  (if EventType.SPECTRAL_FLUX ∈ filter then
    build_throttled_real_events pool.spectral_flux cfg duration .spectralFlux
  else []) ++
  (if EventType.SPECTRAL_COMPLEXITY ∈ filter then
    build_throttled_real_events pool.spectral_complexity cfg duration .spectralComplexity
  else []) ++
  (if EventType.SPECTRAL_CONTRAST ∈ filter then
    build_throttled_vector_events pool.spectral_contrast cfg duration .spectralContrast
  else []) ++
  (if EventType.SPECTRAL_ROLLOFF ∈ filter then
    build_throttled_real_events pool.spectral_rolloff cfg duration .spectralRolloff
  else []) ++
  (if EventType.HFC ∈ filter then
    build_throttled_real_events pool.spectral_hfc cfg duration .hfc
  else []) ++
  (if EventType.MFCC ∈ filter then
    build_throttled_vector_events pool.spectral_mfcc cfg duration .mfcc
  else []) ++
  build_timbre_events pool filter cfg duration

/-- Embedding of `build_band_events`: the three filter-gated throttled band streams. -/
def build_band_events (pool : PoolData) (filter : EventFilter) (cfg : Config)
    (duration : ℚ) : Timeline :=
  (if EventType.BANDS_MEL ∈ filter then
    build_throttled_vector_events pool.bands_mel cfg duration .bandsMel
  else []) ++
  (if EventType.BANDS_BARK ∈ filter then
    build_throttled_vector_events pool.bands_bark cfg duration .bandsBark
  else []) ++
  (if EventType.BANDS_ERB ∈ filter then
    build_throttled_vector_events pool.bands_erb cfg duration .bandsErb
  else [])

/-- The single KEY_CHANGE event at t = 0 (the streaming Key estimator yields
one whole-file estimate). -/
def build_key_events (pool : PoolData) (filter : EventFilter) : Timeline :=
  if EventType.KEY_CHANGE ∉ filter then []
  else
    match pool.tonal_key, pool.tonal_scale with
    | some keys, some scales =>
      if keys = [] then []
      else
        [⟨0, .keyChange ((keys.getLast?).getD "")
            ((scales.getLast?).getD "")
            (((pool.tonal_keyStrength.getD []).getLast?).getD 0)⟩]
    | _, _ => []

/-- The CHORD_CHANGE run-length loop: emit only at label transitions; the
`t > duration` break is only tested when the label changes. -/
def build_chord_events (pool : PoolData) (filter : EventFilter) (cfg : Config)
    (duration : ℚ) : Timeline :=
  if EventType.CHORD_CHANGE ∉ filter then []
  else
    match pool.tonal_chords with
    | none => []
    | some chords =>
      let strengths := pool.tonal_chordStrength.getD []
      runLoopFrom chords.length 0
        (fun i prev =>
          let ci := chords.getD i ""
          if ci ≠ prev then
            let t := frame_to_time (i : ℤ) cfg.hop_size cfg.sample_rate
            if t > duration then none
            else some ([⟨t, .chordChange ci (strengths.getD i 0)⟩], ci)
          else some ([], prev))
        ""

/-- Embedding of `build_tonal_events`: chroma, key, chords, dissonance, inharmonicity in
source order. -/
def build_tonal_events (pool : PoolData) (filter : EventFilter) (cfg : Config)
    (duration : ℚ) : Timeline :=
  (if EventType.CHROMA ∈ filter then
    build_throttled_vector_events pool.tonal_hpcp cfg duration .chroma
  else []) ++
  build_key_events pool filter ++
  build_chord_events pool filter cfg duration ++
  (if EventType.DISSONANCE ∈ filter then
    build_throttled_real_events pool.tonal_dissonance cfg duration .dissonance
  else []) ++
  (if EventType.INHARMONICITY ∈ filter then
    build_throttled_real_events pool.tonal_inharmonicity cfg duration .inharmonicity
  else [])

/-- Embedding of `build_pitch_events`: one frame walk carrying (last_emit, prev_pitch);
the throttled PITCH stream requires confidence > 0.3, PITCH_CHANGE requires
confidence > 0.5, positive frequencies, and a ratio outside [0.94, 1.06]. -/
def build_pitch_events (pool : PoolData) (filter : EventFilter) (cfg : Config)
    (duration : ℚ) : Timeline :=
  let want_pitch := EventType.PITCH ∈ filter
  let want_change := EventType.PITCH_CHANGE ∈ filter
  if ¬(want_pitch ∨ want_change) then []
  else
    match pool.pitch_values with
    | none => []
    | some pitches =>
      let confs := pool.pitch_confidence.getD []
      let interval := cfg.continuous_interval
      runLoopFrom pitches.length 0
        (fun i (st : ℚ × ℚ) =>
          let last := st.1
          let prev_pitch := st.2
          let t := frame_to_time (i : ℤ) cfg.hop_size cfg.sample_rate
          if t > duration then none
          else
            let freq := pitches.getD i 0
            let conf := confs.getD i 0
            let emitP : Bool := want_pitch ∧ t - last ≥ interval ∧ conf > 3/10
            let evP : Timeline := if emitP then [⟨t, .pitch freq conf⟩] else []
            let evC : Timeline :=
              if want_change ∧ 0 < i ∧ conf > 1/2 ∧ prev_pitch > 0 ∧ freq > 0 ∧
                  (freq / prev_pitch > 106/100 ∨ freq / prev_pitch < 94/100)
              then [⟨t, .pitchChange prev_pitch freq⟩] else []
            some (evP ++ evC,
              (if emitP then t else last, if conf > 3/10 then freq else prev_pitch)))
        (-interval, 0)

/-- Embedding of `build_melody_events`: throttled MELODY stream over the first (flattened)
melody vector, skipping unvoiced frames (frequency ≤ 0). -/
def build_melody_events (pool : PoolData) (filter : EventFilter) (cfg : Config)
    (duration : ℚ) : Timeline :=
  if EventType.MELODY ∉ filter then []
  else
    match pool.melody_pitch with
    | none => []
    | some pitch_vecs =>
      if pitch_vecs = [] then []
      else
        let pitches := pitch_vecs.getD 0 []
        runLoopFrom pitches.length 0
          (fun i last =>
            let t := frame_to_time (i : ℤ) cfg.hop_size cfg.sample_rate
            if t > duration then none
            else
              let freq := pitches.getD i 0
              if freq ≤ 0 then some ([], last)
              else if t - last ≥ cfg.continuous_interval then
                some ([⟨t, .melody freq⟩], t)
              else some ([], last))
          (-cfg.continuous_interval)

/-- Embedding of `build_segmentation_events`: one SEGMENT_BOUNDARY per interior SBic
boundary with 0 < t < duration, requiring ≥ 10 MFCC frames.  The interior
index range `1 ≤ i < len - 1` is written here with truncated `ℕ`
subtraction; the `size_t` wraparound of `len - 1` for the empty vector is
modelled faithfully by `seg_loop_accessed` below. -/
def build_segmentation_events (pool : PoolData) (filter : EventFilter) (cfg : Config)
    (duration : ℚ) : Timeline :=
  if EventType.SEGMENT_BOUNDARY ∉ filter then []
  else
    match pool.spectral_mfcc with
    | none => []
    | some mfccs =>
      if mfccs.length < 10 then []
      else
        let segmentation := pool.sbic_segmentation
        (List.range segmentation.length).filterMap (fun i =>
          if 1 ≤ i ∧ i < segmentation.length - 1 then
            let t := frame_to_time (segmentation.getD i 0) cfg.hop_size cfg.sample_rate
            if 0 < t ∧ t < duration then some ⟨t, .segmentBoundary⟩
            else none
          else none)

/-- The TRACK_POSITION heartbeat times: `for (t = I; t < duration; t += I)`.
The loop only terminates for positive `I`; exact rational addition makes the
k-th time `(k+1)·I`. -/
def heartbeat_times (interval duration : ℚ) : List ℚ :=
  if 0 < interval then
    ((List.range (Int.toNat ⌈duration / interval⌉)).map
        (fun (k : ℕ) => ((k : ℚ) + 1) * interval)).filter (fun t => t < duration)
  else []

/-- The TRACK_START envelope `analyze` pushes first: configured input path,
measured duration, configured sample rate, and a hard-coded channel count 1. -/
def track_start_event (cfg : Config) (duration : ℚ) : TimelineEvent :=
  ⟨0, .trackStart cfg.input_file duration cfg.sample_rate 1⟩

/-- The timeline `analyze` assembles before its final sort, in exact push
order: TRACK_START, the eleven pool builders, the heartbeats, TRACK_END.
`duration` is the measured duration (sample count / sample rate); the pool
contents are the outputs of the analysis passes. -/
def assemble_timeline (cfg : Config) (pool : PoolData) (duration : ℚ) : Timeline :=
  let filter := cfg.enabled_events
  [track_start_event cfg duration] ++
  build_beat_events pool filter ++
  build_onset_events pool filter ++
  build_silence_events pool filter cfg duration ++
  build_loudness_events pool filter cfg duration ++
  build_energy_events pool filter cfg duration ++
  build_spectral_events pool filter cfg duration ++
  build_band_events pool filter cfg duration ++
  build_tonal_events pool filter cfg duration ++
  build_pitch_events pool filter cfg duration ++
  build_melody_events pool filter cfg duration ++
  build_segmentation_events pool filter cfg duration ++
  (heartbeat_times cfg.position_interval duration).map (fun t => ⟨t, .trackPosition t⟩) ++
  [⟨duration, .trackEnd⟩]

/-- The contract of the final `std::sort(timeline, a.timestamp < b.timestamp)`:
the output is a permutation of the input, non-decreasing in timestamp.  The
C++ standard leaves the relative order of equivalent (equal-timestamp)
elements unspecified, so the sort is a relation, not a function. -/
def sort_spec (input output : Timeline) : Prop :=
  output.Perm input ∧ output.Sorted (fun a b => a.timestamp ≤ b.timestamp)

/-- Embedding of `analyze` as a relation between its inputs (config, pool contents
produced by the passes, measured duration) and its possible return values. -/
def analyze_rel (cfg : Config) (pool : PoolData) (duration : ℚ)
    (output : Timeline) : Prop :=
  sort_spec (assemble_timeline cfg pool duration) output

/-- What it means for `(cfg, pool, duration)` to come from an actual run on
an analyzable audio file: hop size and sample rate are positive (config
validation), the measured duration is non-negative (it is a sample count over
the sample rate), the detected beat and onset times lie inside the file, the
detected silence transition frames lie inside the file, and silence frames
are non-negative frame indices. -/
def analyzable_inputs (cfg : Config) (pool : PoolData) (duration : ℚ) : Prop :=
  0 < cfg.hop_size ∧ 0 < cfg.sample_rate ∧ 0 ≤ duration ∧
  (∀ t ∈ pool.rhythm_ticks.getD [], 0 ≤ t ∧ t ≤ duration) ∧
  (∀ t ∈ pool.rhythm_onsetTimes.getD [], 0 ≤ t ∧ t ≤ duration) ∧
  (∀ f ∈ pool.silence_startFrame.getD [],
    frame_to_time f cfg.hop_size cfg.sample_rate ≤ duration) ∧
  (∀ f ∈ pool.silence_stopFrame.getD [], 0 ≤ f)

/-- The phrasing shared by all per-builder type lemmas: the event's type is
selected by the filter and is not a transport type. -/
def TypedBy (filter : EventFilter) (e : TimelineEvent) : Prop :=
  event_type_of e.payload ∈ filter ∧
    is_transport_event (event_type_of e.payload) = false

/-- The bound obligation shared by the per-builder bounds lemmas. -/
def BoundedBy (duration : ℚ) (e : TimelineEvent) : Prop :=
  0 ≤ e.timestamp ∧ e.timestamp ≤ duration

/-- The timestamp ordering used by the final sort is total. -/
instance : IsTotal TimelineEvent (fun a b => a.timestamp ≤ b.timestamp) :=
  ⟨fun a b => le_total a.timestamp b.timestamp⟩

/-- The timestamp ordering used by the final sort is transitive. -/
instance : IsTrans TimelineEvent (fun a b => a.timestamp ≤ b.timestamp) :=
  ⟨fun _ _ _ h1 h2 => le_trans h1 h2⟩

/-- The modulus of `size_t` arithmetic on the target platform, 2^64. -/
def SIZE_T_MOD : Nat := 2 ^ 64

/-- The value of the `size_t` expression `segmentation.size() - 1` bounding
the interior-boundary loop in `build_segmentation_events` (unsigned
subtraction wraps around). -/
def seg_loop_bound (n : Nat) : Nat := (n + SIZE_T_MOD - 1) % SIZE_T_MOD

/-- Whether `for (size_t i = 1; i < segmentation.size() - 1; ++i)` reads
`segmentation[i]`, for a vector of size `n`. -/
def seg_loop_accessed (n i : Nat) : Prop := 1 ≤ i ∧ i < seg_loop_bound n

/-- The cooperative interruption flag as the emitter's playback loop observes
it: `topFlag i` is its value at the top-of-loop check of iteration `i`,
`waitFlag i` its value at the post-wait check of iteration `i`.  The flag is
set asynchronously and never cleared, so each observation implies all later
ones. -/
structure InterruptSchedule where
  topFlag : Nat → Bool
  waitFlag : Nat → Bool
  top_imp_wait : ∀ i, topFlag i = true → waitFlag i = true
  wait_imp_top : ∀ i, waitFlag i = true → topFlag (i + 1) = true

/-- The playback loop of `Emitter::run` (part_006, lines 60-93): at the top of
each iteration, a set flag sends one abort envelope (timestamp of the event
about to fire, reason "user_interrupt") and returns; a flag first seen at the
post-wait check suppresses the send and `continue`s to the next iteration
("will be caught at top of loop"); otherwise the event is sent.  The result
is the list of envelopes handed to `Transport::send`, in order. -/
def emitter_play (sched : InterruptSchedule) : Nat → List TimelineEvent → List TimelineEvent
  | _, [] => []
  | i, e :: rest =>
    if sched.topFlag i then [⟨e.timestamp, .trackAbort "user_interrupt"⟩]
    else if sched.waitFlag i then emitter_play sched (i + 1) rest
    else e :: emitter_play sched (i + 1) rest

/-- Number of TRACK_ABORT envelopes in a sent sequence. -/
def abort_count (sent : List TimelineEvent) : Nat :=
  (sent.filter (fun e => event_type_of e.payload = EventType.TRACK_ABORT)).length

/-- The observable state `Transport`'s constructor establishes.
`warning_count` counts the warnings it prints. -/
structure TransportState where
  unicast_enabled : Bool
  warning_count : Nat
  multicast_group : String
  unicast_endpoint : String

/-- Embedding of `Transport::Transport` (transport.cpp, lines 27-59).  `gateway` is the
result of the external gateway lookup `detect_wsl2_host()` (parsing
`ip route show default`); the empty string models lookup failure.  When
unicast is requested but neither an explicit target nor the lookup yields an
address, one warning is printed and unicast stays disabled for the run. -/
def transport_init (cfg : Config) (gateway : String) : TransportState :=
  if cfg.enable_unicast then
    let target := if cfg.unicast_target = "" then gateway else cfg.unicast_target
    if target = "" then
      { unicast_enabled := false, warning_count := 1,
        multicast_group := cfg.multicast_group, unicast_endpoint := "" }
    else
      { unicast_enabled := true, warning_count := 0,
        multicast_group := cfg.multicast_group, unicast_endpoint := target }
  else
    { unicast_enabled := false, warning_count := 0,
      multicast_group := cfg.multicast_group, unicast_endpoint := "" }

/-- A datagram destination. -/
inductive SendDest where
  | multicast (group : String)
  | unicast (target : String)
  deriving DecidableEq, Repr

/-- Embedding of `Transport::send` (transport.cpp, lines 61-74): always one datagram to the
multicast endpoint, plus one to the unicast endpoint iff unicast is enabled. -/
def transport_send (st : TransportState) (payload : String) : List (SendDest × String) :=
  (SendDest.multicast st.multicast_group, payload) ::
    (if st.unicast_enabled then [(SendDest.unicast st.unicast_endpoint, payload)] else [])

/-- A minimal configuration used for concrete evaluations: unit hop size and
sample rate make frame `i` fall at `i` seconds. -/
def cfg_simple (filter : EventFilter) : Config :=
  { multicast_group := "239.255.0.1", port := 5000, ttl := 1, loopback := true,
    interface := "0.0.0.0", sample_rate := 1, frame_size := 2, hop_size := 1,
    position_interval := 1, enabled_events := filter, continuous_interval := 1/10,
    input_file := "song.wav", prepare_time := 0, enable_unicast := false,
    unicast_target := "" }

/-- A pool in which the beat pass detected a single tick at t = 0. -/
def pool_beat0 : PoolData := { rhythm_ticks := some [0] }

/-- The pool of Scenario B: leading silence until frame 2 and trailing silence
from frame 8 (at unit hop/sample-rate: 2 s and 8 s) in a 10 s file. -/
def pool_silence : PoolData :=
  { silence_startFrame := some [2], silence_stopFrame := some [8] }

/-- A configuration requesting unicast fallback with no explicit target. -/
def cfg_unicast : Config :=
  { cfg_simple ∅ with enable_unicast := true, unicast_target := "" }

/-- An interruption schedule whose flag becomes set during the wait of
iteration 0: false at the top-of-loop check of iteration 0, true at every
later observation. -/
def sched_wait0 : InterruptSchedule where
  topFlag := fun i => decide (1 ≤ i)
  waitFlag := fun _ => true
  top_imp_wait := fun _ _ => rfl
  wait_imp_top := fun i _ => decide_eq_true (Nat.succ_le_succ (Nat.zero_le i))

/-! ### Helper lemmas -/

/-- Events produced by an indexed loop all satisfy `P` when every step's
events do. -/
theorem indexedLoop_forall {σ : Type} {P : TimelineEvent → Prop}
    {step : Nat → σ → Option (Timeline × σ)}
    (hstep : ∀ i s es s2, step i s = some (es, s2) → ∀ e ∈ es, P e) :
    ∀ fuel i s, ∀ e ∈ indexedLoop step fuel i s, P e := by
  intro fuel
  induction fuel with
  | zero => intro i s e he; simp [indexedLoop] at he
  | succ k ih =>
    intro i s e he
    rw [indexedLoop] at he
    split at he
    · simp at he
    · rename_i es s2 hs
      rcases List.mem_append.mp he with h1 | h1
      · exact hstep i s es s2 hs e h1
      · exact ih (i + 1) s2 e h1

/-- Events produced by `runLoopFrom` all satisfy `P` when every step's
events do. -/
theorem runLoopFrom_forall {σ : Type} {P : TimelineEvent → Prop}
    {step : Nat → σ → Option (Timeline × σ)}
    (hstep : ∀ i s es s2, step i s = some (es, s2) → ∀ e ∈ es, P e)
    (n start : Nat) (s : σ) : ∀ e ∈ runLoopFrom n start step s, P e := by
  intro e he
  exact indexedLoop_forall hstep (n - start) start s e he

/-- Invariant of the throttling loop: every emitted event lies at a frame
time not beyond `duration`, the first emission is at least `interval` after
the initial `last` value, and consecutive emissions are at least `interval`
apart. -/
theorem throttle_invariant (hop_size sample_rate : ℤ) (interval duration : ℚ)
    (pf : Nat → EventPayload) :
    ∀ fuel i last,
      (∀ e ∈ indexedLoop (throttle_step hop_size sample_rate interval duration pf)
          fuel i last,
        e.timestamp ≤ duration ∧
          ∃ j : Nat, e.timestamp = frame_to_time (j : ℤ) hop_size sample_rate) ∧
      (∀ e, (indexedLoop (throttle_step hop_size sample_rate interval duration pf)
          fuel i last).head? = some e → interval ≤ e.timestamp - last) ∧
      List.Chain' (fun a b => interval ≤ b.timestamp - a.timestamp)
        (indexedLoop (throttle_step hop_size sample_rate interval duration pf)
          fuel i last) := by
  intro fuel
  induction fuel with
  | zero =>
    intro i last
    refine ⟨?_, ?_, ?_⟩ <;> simp [indexedLoop]
  | succ k ih =>
    intro i last
    rw [indexedLoop]
    rcases Classical.em (frame_to_time (i : ℤ) hop_size sample_rate > duration)
      with ht | ht
    · rw [show throttle_step hop_size sample_rate interval duration pf i last = none by
        simp [throttle_step, ht]]
      refine ⟨?_, ?_, ?_⟩ <;> simp
    · rcases Classical.em
          (frame_to_time (i : ℤ) hop_size sample_rate - last ≥ interval) with hi | hi
      · rw [show throttle_step hop_size sample_rate interval duration pf i last =
            some ([⟨frame_to_time (i : ℤ) hop_size sample_rate, pf i⟩],
              frame_to_time (i : ℤ) hop_size sample_rate) by
          simp [throttle_step, ht, hi]]
        simp only [List.singleton_append]
        obtain ⟨ihb, ihh, ihc⟩ :=
          ih (i + 1) (frame_to_time (i : ℤ) hop_size sample_rate)
        refine ⟨?_, ?_, ?_⟩
        · intro e he
          rcases List.mem_cons.mp he with rfl | h1
          · exact ⟨le_of_not_lt ht, i, rfl⟩
          · exact ihb e h1
        · intro e he
          rw [List.head?_cons, Option.some_inj] at he
          subst he
          exact hi
        · exact List.chain'_cons'.mpr ⟨fun b hb => by
            have := ihh b hb
            linarith, ihc⟩
      · rw [show throttle_step hop_size sample_rate interval duration pf i last =
            some ([], last) by simp [throttle_step, ht, hi]]
        simp only [List.nil_append]
        exact ih (i + 1) last

/-- Destructing membership in `if c then l else []`. -/
theorem mem_of_mem_ite_nil {c : Prop} [Decidable c] {l : List TimelineEvent}
    {e : TimelineEvent} (he : e ∈ (if c then l else [])) : c ∧ e ∈ l := by
  split at he
  · exact ⟨by assumption, he⟩
  · simp at he

/-- Every event of a throttling loop has a payload of the shape `pf i`. -/
theorem throttle_loop_payload {n : Nat} {hop_size sample_rate : ℤ}
    {interval duration : ℚ} {pf : Nat → EventPayload} (P : EventPayload → Prop)
    (hpf : ∀ i, P (pf i)) :
    ∀ e ∈ throttle_loop n hop_size sample_rate interval duration pf, P e.payload := by
  unfold throttle_loop
  refine runLoopFrom_forall ?_ _ _ _
  intro i s es s2 h e he
  simp only [throttle_step] at h
  split at h
  · simp at h
  · split at h
    · rw [Option.some_inj, Prod.mk.injEq] at h
      rw [← h.1] at he
      rcases List.mem_singleton.mp he with rfl
      exact hpf i
    · rw [Option.some_inj, Prod.mk.injEq] at h
      rw [← h.1] at he
      simp at he

/-- Every event of a throttling loop has a frame timestamp in `[0, duration]`
(provided hop size and sample rate are positive). -/
theorem throttle_loop_bounds {n : Nat} {hop_size sample_rate : ℤ}
    {interval duration : ℚ} {pf : Nat → EventPayload}
    (hhop : 0 < hop_size) (hsr : 0 < sample_rate) :
    ∀ e ∈ throttle_loop n hop_size sample_rate interval duration pf,
      0 ≤ e.timestamp ∧ e.timestamp ≤ duration := by
  intro e he
  obtain ⟨hb, -, -⟩ :=
    throttle_invariant hop_size sample_rate interval duration pf n 0 (-interval)
  obtain ⟨hle, j, hj⟩ := hb e he
  refine ⟨?_, hle⟩
  rw [hj]
  unfold frame_to_time
  apply div_nonneg
  · apply mul_nonneg
    · exact_mod_cast Nat.zero_le j
    · exact_mod_cast le_of_lt hhop
  · exact_mod_cast le_of_lt hsr

/-- Every event of `build_throttled_real_events` satisfies `P (mk v)`. -/
theorem build_throttled_real_payload {vals : Option (List ℚ)} {cfg : Config}
    {duration : ℚ} {mk : ℚ → EventPayload} (P : EventPayload → Prop)
    (hmk : ∀ v, P (mk v)) :
    ∀ e ∈ build_throttled_real_events vals cfg duration mk, P e.payload := by
  intro e he
  simp only [build_throttled_real_events] at he
  split at he
  · simp at he
  · split at he
    · simp at he
    · exact throttle_loop_payload P (fun i => hmk _) e he

/-- Every event of `build_throttled_vector_events` satisfies `P (mk v)`. -/
theorem build_throttled_vector_payload {vals : Option (List (List ℚ))} {cfg : Config}
    {duration : ℚ} {mk : List ℚ → EventPayload} (P : EventPayload → Prop)
    (hmk : ∀ v, P (mk v)) :
    ∀ e ∈ build_throttled_vector_events vals cfg duration mk, P e.payload := by
  intro e he
  simp only [build_throttled_vector_events] at he
  split at he
  · simp at he
  · split at he
    · simp at he
    · exact throttle_loop_payload P (fun i => hmk _) e he

/-- Timestamp bounds for `build_throttled_real_events`. -/
theorem build_throttled_real_bounds {vals : Option (List ℚ)} {cfg : Config}
    {duration : ℚ} {mk : ℚ → EventPayload}
    (hhop : 0 < cfg.hop_size) (hsr : 0 < cfg.sample_rate) :
    ∀ e ∈ build_throttled_real_events vals cfg duration mk,
      0 ≤ e.timestamp ∧ e.timestamp ≤ duration := by
  intro e he
  simp only [build_throttled_real_events] at he
  split at he
  · simp at he
  · split at he
    · simp at he
    · exact throttle_loop_bounds hhop hsr e he

/-- Timestamp bounds for `build_throttled_vector_events`. -/
theorem build_throttled_vector_bounds {vals : Option (List (List ℚ))} {cfg : Config}
    {duration : ℚ} {mk : List ℚ → EventPayload}
    (hhop : 0 < cfg.hop_size) (hsr : 0 < cfg.sample_rate) :
    ∀ e ∈ build_throttled_vector_events vals cfg duration mk,
      0 ≤ e.timestamp ∧ e.timestamp ≤ duration := by
  intro e he
  simp only [build_throttled_vector_events] at he
  split at he
  · simp at he
  · split at he
    · simp at he
    · exact throttle_loop_bounds hhop hsr e he

/-- A payload is a `track.start` envelope iff its type is TRACK_START. -/
theorem is_track_start_iff (p : EventPayload) :
    is_track_start p = true ↔ event_type_of p = EventType.TRACK_START := by
  cases p <;> simp [is_track_start, event_type_of]

theorem build_beat_events_types (pool : PoolData) (filter : EventFilter) :
    ∀ e ∈ build_beat_events pool filter, TypedBy filter e := by
  intro e he
  simp only [build_beat_events] at he
  split at he
  · simp at he
  · rename_i hmem
    split at he
    · simp at he
    · rcases List.mem_map.mp he with ⟨i, hi, rfl⟩
      exact ⟨by simpa [event_type_of] using not_not.mp hmem, by rfl⟩

theorem build_onset_events_types (pool : PoolData) (filter : EventFilter) :
    ∀ e ∈ build_onset_events pool filter, TypedBy filter e := by
  intro e he
  simp only [build_onset_events] at he
  split at he
  · simp at he
  · rename_i hmem
    split at he
    · simp at he
    · rcases List.mem_map.mp he with ⟨i, hi, rfl⟩
      exact ⟨by simpa [event_type_of] using not_not.mp hmem, by rfl⟩

theorem build_silence_events_types (pool : PoolData) (filter : EventFilter)
    (cfg : Config) (duration : ℚ) :
    ∀ e ∈ build_silence_events pool filter cfg duration, TypedBy filter e := by
  intro e he
  simp only [build_silence_events] at he
  split at he
  · simp at he
  · split at he
    · rename_i starts stops
      split at he
      · simp at he
      · rcases List.mem_append.mp he with h | h
        · obtain ⟨-, h⟩ := mem_of_mem_ite_nil h
          rcases List.mem_append.mp h with h | h
          · rcases List.mem_append.mp h with h | h
            · obtain ⟨hc, h⟩ := mem_of_mem_ite_nil h
              rcases List.mem_singleton.mp h with rfl
              exact ⟨by simpa [event_type_of] using hc, by rfl⟩
            · obtain ⟨hc, h⟩ := mem_of_mem_ite_nil h
              rcases List.mem_singleton.mp h with rfl
              exact ⟨by simpa [event_type_of] using hc, by rfl⟩
          · obtain ⟨hc, h⟩ := mem_of_mem_ite_nil h
            rcases List.mem_singleton.mp h with rfl
            exact ⟨by simpa [event_type_of] using hc, by rfl⟩
        · obtain ⟨-, h⟩ := mem_of_mem_ite_nil h
          rcases List.mem_append.mp h with h | h
          · rcases List.mem_append.mp h with h | h
            · obtain ⟨hc, h⟩ := mem_of_mem_ite_nil h
              rcases List.mem_singleton.mp h with rfl
              exact ⟨by simpa [event_type_of] using hc, by rfl⟩
            · obtain ⟨hc, h⟩ := mem_of_mem_ite_nil h
              rcases List.mem_singleton.mp h with rfl
              exact ⟨by simpa [event_type_of] using hc, by rfl⟩
          · obtain ⟨hc, h⟩ := mem_of_mem_ite_nil h
            rcases List.mem_singleton.mp h with rfl
            exact ⟨by simpa [event_type_of] using hc, by rfl⟩
    · simp at he

theorem build_loudness_events_types (pool : PoolData) (filter : EventFilter)
    (cfg : Config) (duration : ℚ) :
    ∀ e ∈ build_loudness_events pool filter cfg duration, TypedBy filter e := by
  intro e he
  simp only [build_loudness_events] at he
  split at he
  · simp at he
  · split at he
    · simp at he
    · split at he
      · simp at he
      · refine runLoopFrom_forall ?_ _ _ _ e he
        intro i s es s2 h e' he'
        simp only at h
        split at h
        · simp at h
        · rw [Option.some_inj, Prod.mk.injEq] at h
          rw [← h.1] at he'
          rcases List.mem_append.mp he' with h1 | h1
          · rcases List.mem_append.mp h1 with h2 | h2
            · obtain ⟨hc, h3⟩ := mem_of_mem_ite_nil h2
              rcases List.mem_singleton.mp h3 with rfl
              obtain ⟨hf, -⟩ := of_decide_eq_true hc
              exact ⟨by simpa [event_type_of] using hf, by rfl⟩
            · obtain ⟨hc, h3⟩ := mem_of_mem_ite_nil h2
              rcases List.mem_singleton.mp h3 with rfl
              exact ⟨by simpa [event_type_of] using hc.1, by rfl⟩
          · obtain ⟨hc, h3⟩ := mem_of_mem_ite_nil h1
            rcases List.mem_singleton.mp h3 with rfl
            exact ⟨by simpa [event_type_of] using hc.1, by rfl⟩

theorem build_energy_events_types (pool : PoolData) (filter : EventFilter)
    (cfg : Config) (duration : ℚ) :
    ∀ e ∈ build_energy_events pool filter cfg duration, TypedBy filter e := by
  intro e he
  simp only [build_energy_events] at he
  split at he
  · simp at he
  · rename_i hmem
    split at he
    · simp at he
    · split at he
      · simp at he
      · refine throttle_loop_payload (fun p => TypedBy filter ⟨0, p⟩) ?_ e he
        intro i
        exact ⟨by simpa [event_type_of] using not_not.mp hmem, by rfl⟩

theorem build_timbre_events_types (pool : PoolData) (filter : EventFilter)
    (cfg : Config) (duration : ℚ) :
    ∀ e ∈ build_timbre_events pool filter cfg duration, TypedBy filter e := by
  intro e he
  simp only [build_timbre_events] at he
  split at he
  · simp at he
  · rename_i hmem
    split at he
    · simp at he
    · refine runLoopFrom_forall ?_ _ _ _ e he
      intro i s es s2 h e' he'
      simp only at h
      split at h
      · simp at h
      · split at h
        · rw [Option.some_inj, Prod.mk.injEq] at h
          rw [← h.1] at he'
          rcases List.mem_singleton.mp he' with rfl
          exact ⟨by simpa [event_type_of] using not_not.mp hmem, by rfl⟩
        · rw [Option.some_inj, Prod.mk.injEq] at h
          rw [← h.1] at he'
          simp at he'

theorem build_spectral_events_types (pool : PoolData) (filter : EventFilter)
    (cfg : Config) (duration : ℚ) :
    ∀ e ∈ build_spectral_events pool filter cfg duration, TypedBy filter e := by
  intro e he
  simp only [build_spectral_events] at he
  rcases List.mem_append.mp he with h | h
  swap
  · exact build_timbre_events_types pool filter cfg duration e h
  rcases List.mem_append.mp h with h | h
  swap
  · obtain ⟨hc, h⟩ := mem_of_mem_ite_nil h
    refine build_throttled_vector_payload (fun p => TypedBy filter ⟨0, p⟩) ?_ e h
    intro v
    exact ⟨by simpa [event_type_of] using hc, by rfl⟩
  rcases List.mem_append.mp h with h | h
  swap
  · obtain ⟨hc, h⟩ := mem_of_mem_ite_nil h
    refine build_throttled_real_payload (fun p => TypedBy filter ⟨0, p⟩) ?_ e h
    intro v
    exact ⟨by simpa [event_type_of] using hc, by rfl⟩
  rcases List.mem_append.mp h with h | h
  swap
  · obtain ⟨hc, h⟩ := mem_of_mem_ite_nil h
    refine build_throttled_real_payload (fun p => TypedBy filter ⟨0, p⟩) ?_ e h
    intro v
    exact ⟨by simpa [event_type_of] using hc, by rfl⟩
  rcases List.mem_append.mp h with h | h
  swap
  · obtain ⟨hc, h⟩ := mem_of_mem_ite_nil h
    refine build_throttled_vector_payload (fun p => TypedBy filter ⟨0, p⟩) ?_ e h
    intro v
    exact ⟨by simpa [event_type_of] using hc, by rfl⟩
  rcases List.mem_append.mp h with h | h
  swap
  · obtain ⟨hc, h⟩ := mem_of_mem_ite_nil h
    refine build_throttled_real_payload (fun p => TypedBy filter ⟨0, p⟩) ?_ e h
    intro v
    exact ⟨by simpa [event_type_of] using hc, by rfl⟩
  rcases List.mem_append.mp h with h | h
  · obtain ⟨hc, h⟩ := mem_of_mem_ite_nil h
    refine build_throttled_real_payload (fun p => TypedBy filter ⟨0, p⟩) ?_ e h
    intro v
    exact ⟨by simpa [event_type_of] using hc, by rfl⟩
  · obtain ⟨hc, h⟩ := mem_of_mem_ite_nil h
    refine build_throttled_real_payload (fun p => TypedBy filter ⟨0, p⟩) ?_ e h
    intro v
    exact ⟨by simpa [event_type_of] using hc, by rfl⟩

theorem build_band_events_types (pool : PoolData) (filter : EventFilter)
    (cfg : Config) (duration : ℚ) :
    ∀ e ∈ build_band_events pool filter cfg duration, TypedBy filter e := by
  intro e he
  simp only [build_band_events] at he
  rcases List.mem_append.mp he with h | h
  swap
  · obtain ⟨hc, h⟩ := mem_of_mem_ite_nil h
    refine build_throttled_vector_payload (fun p => TypedBy filter ⟨0, p⟩) ?_ e h
    intro v
    exact ⟨by simpa [event_type_of] using hc, by rfl⟩
  rcases List.mem_append.mp h with h | h
  · obtain ⟨hc, h⟩ := mem_of_mem_ite_nil h
    refine build_throttled_vector_payload (fun p => TypedBy filter ⟨0, p⟩) ?_ e h
    intro v
    exact ⟨by simpa [event_type_of] using hc, by rfl⟩
  · obtain ⟨hc, h⟩ := mem_of_mem_ite_nil h
    refine build_throttled_vector_payload (fun p => TypedBy filter ⟨0, p⟩) ?_ e h
    intro v
    exact ⟨by simpa [event_type_of] using hc, by rfl⟩

theorem build_key_events_types (pool : PoolData) (filter : EventFilter) :
    ∀ e ∈ build_key_events pool filter, TypedBy filter e := by
  intro e he
  simp only [build_key_events] at he
  split at he
  · simp at he
  · rename_i hmem
    split at he
    · rename_i keys scales
      split at he
      · simp at he
      · rcases List.mem_singleton.mp he with rfl
        exact ⟨by simpa [event_type_of] using not_not.mp hmem, by rfl⟩
    · simp at he

theorem build_chord_events_types (pool : PoolData) (filter : EventFilter)
    (cfg : Config) (duration : ℚ) :
    ∀ e ∈ build_chord_events pool filter cfg duration, TypedBy filter e := by
  intro e he
  simp only [build_chord_events] at he
  split at he
  · simp at he
  · rename_i hmem
    split at he
    · simp at he
    · refine runLoopFrom_forall ?_ _ _ _ e he
      intro i s es s2 h e' he'
      simp only at h
      split at h
      · split at h
        · simp at h
        · rw [Option.some_inj, Prod.mk.injEq] at h
          rw [← h.1] at he'
          rcases List.mem_singleton.mp he' with rfl
          exact ⟨by simpa [event_type_of] using not_not.mp hmem, by rfl⟩
      · rw [Option.some_inj, Prod.mk.injEq] at h
        rw [← h.1] at he'
        simp at he'

theorem build_tonal_events_types (pool : PoolData) (filter : EventFilter)
    (cfg : Config) (duration : ℚ) :
    ∀ e ∈ build_tonal_events pool filter cfg duration, TypedBy filter e := by
  intro e he
  simp only [build_tonal_events] at he
  rcases List.mem_append.mp he with h | h
  swap
  · obtain ⟨hc, h⟩ := mem_of_mem_ite_nil h
    refine build_throttled_real_payload (fun p => TypedBy filter ⟨0, p⟩) ?_ e h
    intro v
    exact ⟨by simpa [event_type_of] using hc, by rfl⟩
  rcases List.mem_append.mp h with h | h
  swap
  · obtain ⟨hc, h⟩ := mem_of_mem_ite_nil h
    refine build_throttled_real_payload (fun p => TypedBy filter ⟨0, p⟩) ?_ e h
    intro v
    exact ⟨by simpa [event_type_of] using hc, by rfl⟩
  rcases List.mem_append.mp h with h | h
  swap
  · exact build_chord_events_types pool filter cfg duration e h
  rcases List.mem_append.mp h with h | h
  swap
  · exact build_key_events_types pool filter e h
  · obtain ⟨hc, h⟩ := mem_of_mem_ite_nil h
    refine build_throttled_vector_payload (fun p => TypedBy filter ⟨0, p⟩) ?_ e h
    intro v
    exact ⟨by simpa [event_type_of] using hc, by rfl⟩

theorem build_pitch_events_types (pool : PoolData) (filter : EventFilter)
    (cfg : Config) (duration : ℚ) :
    ∀ e ∈ build_pitch_events pool filter cfg duration, TypedBy filter e := by
  intro e he
  simp only [build_pitch_events] at he
  split at he
  · simp at he
  · split at he
    · simp at he
    · refine runLoopFrom_forall ?_ _ _ _ e he
      intro i s es s2 h e' he'
      simp only at h
      split at h
      · simp at h
      · rw [Option.some_inj, Prod.mk.injEq] at h
        rw [← h.1] at he'
        rcases List.mem_append.mp he' with h1 | h1
        · obtain ⟨hc, h3⟩ := mem_of_mem_ite_nil h1
          rcases List.mem_singleton.mp h3 with rfl
          obtain ⟨hf, -⟩ := of_decide_eq_true hc
          exact ⟨by simpa [event_type_of] using hf, by rfl⟩
        · obtain ⟨hc, h3⟩ := mem_of_mem_ite_nil h1
          rcases List.mem_singleton.mp h3 with rfl
          exact ⟨by simpa [event_type_of] using hc.1, by rfl⟩

theorem build_melody_events_types (pool : PoolData) (filter : EventFilter)
    (cfg : Config) (duration : ℚ) :
    ∀ e ∈ build_melody_events pool filter cfg duration, TypedBy filter e := by
  intro e he
  simp only [build_melody_events] at he
  split at he
  · simp at he
  · rename_i hmem
    split at he
    · simp at he
    · split at he
      · simp at he
      · refine runLoopFrom_forall ?_ _ _ _ e he
        intro i s es s2 h e' he'
        simp only at h
        split at h
        · simp at h
        · split at h
          · rw [Option.some_inj, Prod.mk.injEq] at h
            rw [← h.1] at he'
            simp at he'
          · split at h
            · rw [Option.some_inj, Prod.mk.injEq] at h
              rw [← h.1] at he'
              rcases List.mem_singleton.mp he' with rfl
              exact ⟨by simpa [event_type_of] using not_not.mp hmem, by rfl⟩
            · rw [Option.some_inj, Prod.mk.injEq] at h
              rw [← h.1] at he'
              simp at he'

theorem build_segmentation_events_types (pool : PoolData) (filter : EventFilter)
    (cfg : Config) (duration : ℚ) :
    ∀ e ∈ build_segmentation_events pool filter cfg duration, TypedBy filter e := by
  intro e he
  simp only [build_segmentation_events] at he
  split at he
  · simp at he
  · rename_i hmem
    split at he
    · simp at he
    · split at he
      · simp at he
      · rcases List.mem_filterMap.mp he with ⟨i, hi, hsome⟩
        split at hsome
        · split at hsome
          · rw [Option.some_inj] at hsome
            rw [← hsome]
            exact ⟨by simpa [event_type_of] using not_not.mp hmem, by rfl⟩
          · simp at hsome
        · simp at hsome

/-- Heartbeat times lie strictly between 0 and the duration. -/
theorem heartbeat_times_bounds (interval duration : ℚ) :
    ∀ t ∈ heartbeat_times interval duration, 0 < t ∧ t < duration := by
  intro t ht
  unfold heartbeat_times at ht
  split at ht
  · rename_i hpos
    simp only [List.mem_filter, List.mem_map, List.mem_range,
      decide_eq_true_eq] at ht
    obtain ⟨⟨k, hk, rfl⟩, hlt⟩ := ht
    refine ⟨?_, hlt⟩
    have hk1 : (0 : ℚ) < (k : ℚ) + 1 := by
      have h2 : (0 : ℚ) ≤ (k : ℚ) := Nat.cast_nonneg k
      linarith
    exact mul_pos hk1 hpos
  · simp at ht

/-- Case analysis on membership in the assembled (pre-sort) timeline. -/
theorem assemble_timeline_cases (cfg : Config) (pool : PoolData) (duration : ℚ) :
    ∀ e ∈ assemble_timeline cfg pool duration,
      e ∈ ([track_start_event cfg duration] : Timeline) ∨
      e ∈ build_beat_events pool cfg.enabled_events ∨
      e ∈ build_onset_events pool cfg.enabled_events ∨
      e ∈ build_silence_events pool cfg.enabled_events cfg duration ∨
      e ∈ build_loudness_events pool cfg.enabled_events cfg duration ∨
      e ∈ build_energy_events pool cfg.enabled_events cfg duration ∨
      e ∈ build_spectral_events pool cfg.enabled_events cfg duration ∨
      e ∈ build_band_events pool cfg.enabled_events cfg duration ∨
      e ∈ build_tonal_events pool cfg.enabled_events cfg duration ∨
      e ∈ build_pitch_events pool cfg.enabled_events cfg duration ∨
      e ∈ build_melody_events pool cfg.enabled_events cfg duration ∨
      e ∈ build_segmentation_events pool cfg.enabled_events cfg duration ∨
      e ∈ (heartbeat_times cfg.position_interval duration).map
        (fun t => ⟨t, .trackPosition t⟩) ∨
      e ∈ ([⟨duration, .trackEnd⟩] : Timeline) := by
  intro e he
  simpa only [assemble_timeline, List.mem_append, or_assoc] using he

/-- Every event of the assembled timeline either has a type selected by the
filter or is a transport event. -/
theorem assemble_timeline_types (cfg : Config) (pool : PoolData) (duration : ℚ) :
    ∀ e ∈ assemble_timeline cfg pool duration,
      event_type_of e.payload ∈ cfg.enabled_events ∨
        is_transport_event (event_type_of e.payload) = true := by
  intro e he
  rcases assemble_timeline_cases cfg pool duration e he with
    (h | h | h | h | h | h | h | h | h | h | h | h | h | h)
  · rcases List.mem_singleton.mp h with rfl
    right; rfl
  · exact Or.inl (build_beat_events_types _ _ e h).1
  · exact Or.inl (build_onset_events_types _ _ e h).1
  · exact Or.inl (build_silence_events_types _ _ _ _ e h).1
  · exact Or.inl (build_loudness_events_types _ _ _ _ e h).1
  · exact Or.inl (build_energy_events_types _ _ _ _ e h).1
  · exact Or.inl (build_spectral_events_types _ _ _ _ e h).1
  · exact Or.inl (build_band_events_types _ _ _ _ e h).1
  · exact Or.inl (build_tonal_events_types _ _ _ _ e h).1
  · exact Or.inl (build_pitch_events_types _ _ _ _ e h).1
  · exact Or.inl (build_melody_events_types _ _ _ _ e h).1
  · exact Or.inl (build_segmentation_events_types _ _ _ _ e h).1
  · rcases List.mem_map.mp h with ⟨t, ht, rfl⟩
    right; rfl
  · rcases List.mem_singleton.mp h with rfl
    right; rfl

/-- Frame times of natural frame indices are non-negative. -/
theorem frame_time_nonneg {hop_size sample_rate : ℤ}
    (hhop : 0 < hop_size) (hsr : 0 < sample_rate) (i : ℕ) :
    0 ≤ frame_to_time (i : ℤ) hop_size sample_rate := by
  unfold frame_to_time
  apply div_nonneg
  · apply mul_nonneg
    · exact_mod_cast Nat.zero_le i
    · exact_mod_cast le_of_lt hhop
  · exact_mod_cast le_of_lt hsr

/-- Frame times of non-negative integer frame indices are non-negative. -/
theorem frame_time_nonneg_int {hop_size sample_rate f : ℤ}
    (hhop : 0 < hop_size) (hsr : 0 < sample_rate) (hf : 0 ≤ f) :
    0 ≤ frame_to_time f hop_size sample_rate := by
  unfold frame_to_time
  apply div_nonneg
  · apply mul_nonneg
    · exact_mod_cast hf
    · exact_mod_cast le_of_lt hhop
  · exact_mod_cast le_of_lt hsr

theorem build_beat_events_bounds {cfg : Config} {pool : PoolData} {duration : ℚ}
    (hticks : ∀ t ∈ pool.rhythm_ticks.getD [], 0 ≤ t ∧ t ≤ duration) :
    ∀ e ∈ build_beat_events pool cfg.enabled_events, BoundedBy duration e := by
  intro e he
  simp only [build_beat_events] at he
  split at he
  · simp at he
  · split at he
    · simp at he
    · rename_i ticks hsome
      rcases List.mem_map.mp he with ⟨i, hi, rfl⟩
      have hmem : ticks.getD i 0 ∈ ticks := by
        rw [List.getD_eq_getElem ticks 0 (List.mem_range.mp hi)]
        exact List.getElem_mem (List.mem_range.mp hi)
      have := hticks (ticks.getD i 0) (by rw [hsome]; exact hmem)
      exact this

theorem build_onset_events_bounds {cfg : Config} {pool : PoolData} {duration : ℚ}
    (honsets : ∀ t ∈ pool.rhythm_onsetTimes.getD [], 0 ≤ t ∧ t ≤ duration) :
    ∀ e ∈ build_onset_events pool cfg.enabled_events, BoundedBy duration e := by
  intro e he
  simp only [build_onset_events] at he
  split at he
  · simp at he
  · split at he
    · simp at he
    · rename_i onsets hsome
      rcases List.mem_map.mp he with ⟨i, hi, rfl⟩
      have hmem : onsets.getD i 0 ∈ onsets := by
        rw [List.getD_eq_getElem onsets 0 (List.mem_range.mp hi)]
        exact List.getElem_mem (List.mem_range.mp hi)
      have := honsets (onsets.getD i 0) (by rw [hsome]; exact hmem)
      exact this

theorem build_silence_events_bounds {cfg : Config} {pool : PoolData} {duration : ℚ}
    (hhop : 0 < cfg.hop_size) (hsr : 0 < cfg.sample_rate) (hdur : 0 ≤ duration)
    (hstart : ∀ f ∈ pool.silence_startFrame.getD [],
      frame_to_time f cfg.hop_size cfg.sample_rate ≤ duration)
    (hstop : ∀ f ∈ pool.silence_stopFrame.getD [], 0 ≤ f) :
    ∀ e ∈ build_silence_events pool cfg.enabled_events cfg duration,
      BoundedBy duration e := by
  intro e he
  simp only [build_silence_events] at he
  split at he
  · simp at he
  · split at he
    · rename_i starts stops hsome1 hsome2
      split at he
      · simp at he
      · rename_i hne
        have hnes : starts ≠ [] := fun h => hne (Or.inl h)
        have hnet : stops ≠ [] := fun h => hne (Or.inr h)
        have hstartmem : (starts.getLast?).getD 0 ∈ starts := by
          rw [List.getLast?_eq_getLast starts hnes]
          simp [List.getLast_mem]
        have hstopmem : (stops.getLast?).getD 0 ∈ stops := by
          rw [List.getLast?_eq_getLast stops hnet]
          simp [List.getLast_mem]
        have hstart' : frame_to_time ((starts.getLast?).getD 0) cfg.hop_size
            cfg.sample_rate ≤ duration := by
          apply hstart
          rw [hsome1]
          exact hstartmem
        have hstop' : (0 : ℤ) ≤ (stops.getLast?).getD 0 := by
          apply hstop
          rw [hsome2]
          exact hstopmem
        have hstopt : 0 ≤ frame_to_time ((stops.getLast?).getD 0) cfg.hop_size
            cfg.sample_rate := frame_time_nonneg_int hhop hsr hstop'
        rcases List.mem_append.mp he with h | h
        · obtain ⟨hc, h⟩ := mem_of_mem_ite_nil h
          have hst : (0 : ℚ) ≤ frame_to_time ((starts.getLast?).getD 0)
              cfg.hop_size cfg.sample_rate := le_of_lt (lt_trans (by norm_num) hc.2)
          rcases List.mem_append.mp h with h | h
          · rcases List.mem_append.mp h with h | h
            · obtain ⟨-, h⟩ := mem_of_mem_ite_nil h
              rcases List.mem_singleton.mp h with rfl
              exact ⟨le_refl 0, hdur⟩
            · obtain ⟨-, h⟩ := mem_of_mem_ite_nil h
              rcases List.mem_singleton.mp h with rfl
              exact ⟨hst, hstart'⟩
          · obtain ⟨-, h⟩ := mem_of_mem_ite_nil h
            rcases List.mem_singleton.mp h with rfl
            exact ⟨le_refl 0, hdur⟩
        · obtain ⟨hc, h⟩ := mem_of_mem_ite_nil h
          have hsd : frame_to_time ((stops.getLast?).getD 0) cfg.hop_size
              cfg.sample_rate ≤ duration := by
            have : (1 : ℚ) / 20 > 0 := by norm_num
            linarith
          rcases List.mem_append.mp h with h | h
          · rcases List.mem_append.mp h with h | h
            · obtain ⟨-, h⟩ := mem_of_mem_ite_nil h
              rcases List.mem_singleton.mp h with rfl
              exact ⟨hstopt, hsd⟩
            · obtain ⟨-, h⟩ := mem_of_mem_ite_nil h
              rcases List.mem_singleton.mp h with rfl
              exact ⟨hdur, le_refl duration⟩
          · obtain ⟨-, h⟩ := mem_of_mem_ite_nil h
            rcases List.mem_singleton.mp h with rfl
            exact ⟨hstopt, hsd⟩
    · simp at he

theorem build_loudness_events_bounds {cfg : Config} {pool : PoolData} {duration : ℚ}
    (hhop : 0 < cfg.hop_size) (hsr : 0 < cfg.sample_rate) :
    ∀ e ∈ build_loudness_events pool cfg.enabled_events cfg duration,
      BoundedBy duration e := by
  intro e he
  simp only [build_loudness_events] at he
  split at he
  · simp at he
  · split at he
    · simp at he
    · split at he
      · simp at he
      · refine runLoopFrom_forall ?_ _ _ _ e he
        intro i s es s2 h e' he'
        simp only at h
        split at h
        · simp at h
        · rename_i ht
          rw [Option.some_inj, Prod.mk.injEq] at h
          rw [← h.1] at he'
          have hb : BoundedBy duration
              (⟨frame_to_time (i : ℤ) cfg.hop_size cfg.sample_rate,
                EventPayload.trackEnd⟩ : TimelineEvent) :=
            ⟨frame_time_nonneg hhop hsr i, le_of_not_lt ht⟩
          rcases List.mem_append.mp he' with h1 | h1
          · rcases List.mem_append.mp h1 with h2 | h2
            · obtain ⟨-, h3⟩ := mem_of_mem_ite_nil h2
              rcases List.mem_singleton.mp h3 with rfl
              exact hb
            · obtain ⟨-, h3⟩ := mem_of_mem_ite_nil h2
              rcases List.mem_singleton.mp h3 with rfl
              exact hb
          · obtain ⟨-, h3⟩ := mem_of_mem_ite_nil h1
            rcases List.mem_singleton.mp h3 with rfl
            exact hb

theorem build_energy_events_bounds {cfg : Config} {pool : PoolData} {duration : ℚ}
    (hhop : 0 < cfg.hop_size) (hsr : 0 < cfg.sample_rate) :
    ∀ e ∈ build_energy_events pool cfg.enabled_events cfg duration,
      BoundedBy duration e := by
  intro e he
  simp only [build_energy_events] at he
  split at he
  · simp at he
  · split at he
    · simp at he
    · split at he
      · simp at he
      · exact throttle_loop_bounds hhop hsr e he

theorem build_timbre_events_bounds {cfg : Config} {pool : PoolData} {duration : ℚ}
    (hhop : 0 < cfg.hop_size) (hsr : 0 < cfg.sample_rate) :
    ∀ e ∈ build_timbre_events pool cfg.enabled_events cfg duration,
      BoundedBy duration e := by
  intro e he
  simp only [build_timbre_events] at he
  split at he
  · simp at he
  · split at he
    · simp at he
    · refine runLoopFrom_forall ?_ _ _ _ e he
      intro i s es s2 h e' he'
      simp only at h
      split at h
      · simp at h
      · rename_i ht
        split at h
        · rw [Option.some_inj, Prod.mk.injEq] at h
          rw [← h.1] at he'
          rcases List.mem_singleton.mp he' with rfl
          exact ⟨frame_time_nonneg hhop hsr i, le_of_not_lt ht⟩
        · rw [Option.some_inj, Prod.mk.injEq] at h
          rw [← h.1] at he'
          simp at he'

theorem build_spectral_events_bounds {cfg : Config} {pool : PoolData} {duration : ℚ}
    (hhop : 0 < cfg.hop_size) (hsr : 0 < cfg.sample_rate) :
    ∀ e ∈ build_spectral_events pool cfg.enabled_events cfg duration,
      BoundedBy duration e := by
  intro e he
  simp only [build_spectral_events] at he
  rcases List.mem_append.mp he with h | h
  swap
  · exact build_timbre_events_bounds hhop hsr e h
  rcases List.mem_append.mp h with h | h
  swap
  · exact build_throttled_vector_bounds hhop hsr e (mem_of_mem_ite_nil h).2
  rcases List.mem_append.mp h with h | h
  swap
  · exact build_throttled_real_bounds hhop hsr e (mem_of_mem_ite_nil h).2
  rcases List.mem_append.mp h with h | h
  swap
  · exact build_throttled_real_bounds hhop hsr e (mem_of_mem_ite_nil h).2
  rcases List.mem_append.mp h with h | h
  swap
  · exact build_throttled_vector_bounds hhop hsr e (mem_of_mem_ite_nil h).2
  rcases List.mem_append.mp h with h | h
  swap
  · exact build_throttled_real_bounds hhop hsr e (mem_of_mem_ite_nil h).2
  rcases List.mem_append.mp h with h | h
  · exact build_throttled_real_bounds hhop hsr e (mem_of_mem_ite_nil h).2
  · exact build_throttled_real_bounds hhop hsr e (mem_of_mem_ite_nil h).2

theorem build_band_events_bounds {cfg : Config} {pool : PoolData} {duration : ℚ}
    (hhop : 0 < cfg.hop_size) (hsr : 0 < cfg.sample_rate) :
    ∀ e ∈ build_band_events pool cfg.enabled_events cfg duration,
      BoundedBy duration e := by
  intro e he
  simp only [build_band_events] at he
  rcases List.mem_append.mp he with h | h
  swap
  · exact build_throttled_vector_bounds hhop hsr e (mem_of_mem_ite_nil h).2
  rcases List.mem_append.mp h with h | h
  · exact build_throttled_vector_bounds hhop hsr e (mem_of_mem_ite_nil h).2
  · exact build_throttled_vector_bounds hhop hsr e (mem_of_mem_ite_nil h).2

theorem build_key_events_bounds {cfg : Config} {pool : PoolData} {duration : ℚ}
    (hdur : 0 ≤ duration) :
    ∀ e ∈ build_key_events pool cfg.enabled_events, BoundedBy duration e := by
  intro e he
  simp only [build_key_events] at he
  split at he
  · simp at he
  · split at he
    · split at he
      · simp at he
      · rcases List.mem_singleton.mp he with rfl
        exact ⟨le_refl 0, hdur⟩
    · simp at he

theorem build_chord_events_bounds {cfg : Config} {pool : PoolData} {duration : ℚ}
    (hhop : 0 < cfg.hop_size) (hsr : 0 < cfg.sample_rate) :
    ∀ e ∈ build_chord_events pool cfg.enabled_events cfg duration,
      BoundedBy duration e := by
  intro e he
  simp only [build_chord_events] at he
  split at he
  · simp at he
  · split at he
    · simp at he
    · refine runLoopFrom_forall ?_ _ _ _ e he
      intro i s es s2 h e' he'
      simp only at h
      split at h
      · split at h
        · simp at h
        · rename_i ht
          rw [Option.some_inj, Prod.mk.injEq] at h
          rw [← h.1] at he'
          rcases List.mem_singleton.mp he' with rfl
          exact ⟨frame_time_nonneg hhop hsr i, le_of_not_lt ht⟩
      · rw [Option.some_inj, Prod.mk.injEq] at h
        rw [← h.1] at he'
        simp at he'

theorem build_tonal_events_bounds {cfg : Config} {pool : PoolData} {duration : ℚ}
    (hhop : 0 < cfg.hop_size) (hsr : 0 < cfg.sample_rate) (hdur : 0 ≤ duration) :
    ∀ e ∈ build_tonal_events pool cfg.enabled_events cfg duration,
      BoundedBy duration e := by
  intro e he
  simp only [build_tonal_events] at he
  rcases List.mem_append.mp he with h | h
  swap
  · exact build_throttled_real_bounds hhop hsr e (mem_of_mem_ite_nil h).2
  rcases List.mem_append.mp h with h | h
  swap
  · exact build_throttled_real_bounds hhop hsr e (mem_of_mem_ite_nil h).2
  rcases List.mem_append.mp h with h | h
  swap
  · exact build_chord_events_bounds hhop hsr e h
  rcases List.mem_append.mp h with h | h
  swap
  · exact build_key_events_bounds hdur e h
  · exact build_throttled_vector_bounds hhop hsr e (mem_of_mem_ite_nil h).2

theorem build_pitch_events_bounds {cfg : Config} {pool : PoolData} {duration : ℚ}
    (hhop : 0 < cfg.hop_size) (hsr : 0 < cfg.sample_rate) :
    ∀ e ∈ build_pitch_events pool cfg.enabled_events cfg duration,
      BoundedBy duration e := by
  intro e he
  simp only [build_pitch_events] at he
  split at he
  · simp at he
  · split at he
    · simp at he
    · refine runLoopFrom_forall ?_ _ _ _ e he
      intro i s es s2 h e' he'
      simp only at h
      split at h
      · simp at h
      · rename_i ht
        rw [Option.some_inj, Prod.mk.injEq] at h
        rw [← h.1] at he'
        have hb : BoundedBy duration
            (⟨frame_to_time (i : ℤ) cfg.hop_size cfg.sample_rate,
              EventPayload.trackEnd⟩ : TimelineEvent) :=
          ⟨frame_time_nonneg hhop hsr i, le_of_not_lt ht⟩
        rcases List.mem_append.mp he' with h1 | h1
        · obtain ⟨-, h3⟩ := mem_of_mem_ite_nil h1
          rcases List.mem_singleton.mp h3 with rfl
          exact hb
        · obtain ⟨-, h3⟩ := mem_of_mem_ite_nil h1
          rcases List.mem_singleton.mp h3 with rfl
          exact hb

theorem build_melody_events_bounds {cfg : Config} {pool : PoolData} {duration : ℚ}
    (hhop : 0 < cfg.hop_size) (hsr : 0 < cfg.sample_rate) :
    ∀ e ∈ build_melody_events pool cfg.enabled_events cfg duration,
      BoundedBy duration e := by
  intro e he
  simp only [build_melody_events] at he
  split at he
  · simp at he
  · split at he
    · simp at he
    · split at he
      · simp at he
      · refine runLoopFrom_forall ?_ _ _ _ e he
        intro i s es s2 h e' he'
        simp only at h
        split at h
        · simp at h
        · rename_i ht
          split at h
          · rw [Option.some_inj, Prod.mk.injEq] at h
            rw [← h.1] at he'
            simp at he'
          · split at h
            · rw [Option.some_inj, Prod.mk.injEq] at h
              rw [← h.1] at he'
              rcases List.mem_singleton.mp he' with rfl
              exact ⟨frame_time_nonneg hhop hsr i, le_of_not_lt ht⟩
            · rw [Option.some_inj, Prod.mk.injEq] at h
              rw [← h.1] at he'
              simp at he'

theorem build_segmentation_events_bounds {cfg : Config} {pool : PoolData}
    {duration : ℚ} :
    ∀ e ∈ build_segmentation_events pool cfg.enabled_events cfg duration,
      BoundedBy duration e := by
  intro e he
  simp only [build_segmentation_events] at he
  split at he
  · simp at he
  · split at he
    · simp at he
    · split at he
      · simp at he
      · rcases List.mem_filterMap.mp he with ⟨i, hi, hsome⟩
        split at hsome
        · split at hsome
          · rename_i hrange
            rw [Option.some_inj] at hsome
            rw [← hsome]
            exact ⟨le_of_lt hrange.1, le_of_lt hrange.2⟩
          · simp at hsome
        · simp at hsome

/-- Every event of the assembled timeline has a timestamp in `[0, duration]`
when the inputs come from an analyzable file. -/
theorem assemble_timeline_bounds {cfg : Config} {pool : PoolData} {duration : ℚ}
    (hin : analyzable_inputs cfg pool duration) :
    ∀ e ∈ assemble_timeline cfg pool duration, BoundedBy duration e := by
  obtain ⟨hhop, hsr, hdur, hticks, honsets, hstart, hstop⟩ := hin
  intro e he
  rcases assemble_timeline_cases cfg pool duration e he with
    (h | h | h | h | h | h | h | h | h | h | h | h | h | h)
  · rcases List.mem_singleton.mp h with rfl
    exact ⟨le_refl 0, hdur⟩
  · exact build_beat_events_bounds hticks e h
  · exact build_onset_events_bounds honsets e h
  · exact build_silence_events_bounds hhop hsr hdur hstart hstop e h
  · exact build_loudness_events_bounds hhop hsr e h
  · exact build_energy_events_bounds hhop hsr e h
  · exact build_spectral_events_bounds hhop hsr e h
  · exact build_band_events_bounds hhop hsr e h
  · exact build_tonal_events_bounds hhop hsr hdur e h
  · exact build_pitch_events_bounds hhop hsr e h
  · exact build_melody_events_bounds hhop hsr e h
  · exact build_segmentation_events_bounds e h
  · rcases List.mem_map.mp h with ⟨t, ht, rfl⟩
    obtain ⟨h1, h2⟩ := heartbeat_times_bounds cfg.position_interval duration t ht
    exact ⟨le_of_lt h1, le_of_lt h2⟩
  · rcases List.mem_singleton.mp h with rfl
    exact ⟨hdur, le_refl duration⟩

/-- Membership in the filter accumulated by folding `parse_step`. -/
theorem parse_foldl_mem (l : List String) :
    ∀ (s : EventFilter) (w : Nat) (t : EventType),
      t ∈ (l.foldl parse_step (s, w)).1 ↔
        t ∈ s ∨ ∃ tok ∈ l, event_name_lookup tok = some t ∧
          is_transport_event t = false := by
  induction l with
  | nil => intro s w t; simp
  | cons a l ih =>
    intro s w t
    rw [List.foldl_cons]
    cases ha : event_name_lookup a with
    | none =>
      rw [show parse_step (s, w) a = (s, w + 1) by simp [parse_step, ha]]
      rw [ih]
      constructor
      · rintro (h | ⟨tok, htok, hl, ht⟩)
        · exact Or.inl h
        · exact Or.inr ⟨tok, List.mem_cons_of_mem a htok, hl, ht⟩
      · rintro (h | ⟨tok, htok, hl, ht⟩)
        · exact Or.inl h
        · rcases List.mem_cons.mp htok with rfl | htok2
          · rw [ha] at hl; cases hl
          · exact Or.inr ⟨tok, htok2, hl, ht⟩
    | some u =>
      by_cases hu : is_transport_event u = true
      · rw [show parse_step (s, w) a = (s, w + 1) by simp [parse_step, ha, hu]]
        rw [ih]
        constructor
        · rintro (h | ⟨tok, htok, hl, ht⟩)
          · exact Or.inl h
          · exact Or.inr ⟨tok, List.mem_cons_of_mem a htok, hl, ht⟩
        · rintro (h | ⟨tok, htok, hl, ht⟩)
          · exact Or.inl h
          · rcases List.mem_cons.mp htok with rfl | htok2
            · rw [ha, Option.some_inj] at hl
              rw [← hl] at ht
              rw [hu] at ht
              cases ht
            · exact Or.inr ⟨tok, htok2, hl, ht⟩
      · rw [show parse_step (s, w) a = (insert u s, w) by simp [parse_step, ha, hu]]
        rw [ih]
        constructor
        · rintro (h | ⟨tok, htok, hl, ht⟩)
          · rcases Finset.mem_insert.mp h with rfl | h2
            · exact Or.inr ⟨a, List.mem_cons_self a l, ha,
                Bool.not_eq_true _ ▸ hu⟩
            · exact Or.inl h2
          · exact Or.inr ⟨tok, List.mem_cons_of_mem a htok, hl, ht⟩
        · rintro (h | ⟨tok, htok, hl, ht⟩)
          · exact Or.inl (Finset.mem_insert_of_mem h)
          · rcases List.mem_cons.mp htok with rfl | htok2
            · rw [ha, Option.some_inj] at hl
              rw [hl]
              exact Or.inl (Finset.mem_insert_self t s)
            · exact Or.inr ⟨tok, htok2, hl, ht⟩

/-- The warning counter accumulated by folding `parse_step` counts exactly
the skipped tokens. -/
theorem parse_foldl_warn (l : List String) :
    ∀ (s : EventFilter) (w : Nat),
      (l.foldl parse_step (s, w)).2 = w + l.countP token_skipped := by
  induction l with
  | nil => intro s w; simp
  | cons a l ih =>
    intro s w
    rw [List.foldl_cons]
    cases ha : event_name_lookup a with
    | none =>
      rw [show parse_step (s, w) a = (s, w + 1) by simp [parse_step, ha]]
      rw [ih]
      rw [List.countP_cons_of_pos _ _ (by simp [token_skipped, ha])]
      omega
    | some u =>
      by_cases hu : is_transport_event u = true
      · rw [show parse_step (s, w) a = (s, w + 1) by simp [parse_step, ha, hu]]
        rw [ih]
        rw [List.countP_cons_of_pos _ _ (by simp [token_skipped, ha, hu])]
        omega
      · rw [show parse_step (s, w) a = (insert u s, w) by simp [parse_step, ha, hu]]
        rw [ih]
        rw [List.countP_cons_of_neg _ _ (by simp [token_skipped, ha, hu])]

/-- The sort contract is satisfiable for every input (e.g. by an insertion
sort). -/
theorem sort_spec_exists (input : Timeline) : ∃ output, sort_spec input output :=
  ⟨List.insertionSort (fun a b => a.timestamp ≤ b.timestamp) input,
    List.perm_insertionSort _ input,
    List.sorted_insertionSort _ input⟩

/-- The three throttling properties, for a whole `throttle_loop`. -/
theorem throttle_loop_correct (n : Nat) (hop_size sample_rate : ℤ)
    (interval duration : ℚ) (pf : Nat → EventPayload) :
    (∀ e ∈ throttle_loop n hop_size sample_rate interval duration pf,
      e.timestamp ≤ duration ∧
        ∃ j : ℕ, e.timestamp = frame_to_time (j : ℤ) hop_size sample_rate) ∧
    (∀ e, (throttle_loop n hop_size sample_rate interval duration pf).head? =
        some e → interval ≤ e.timestamp - (-interval)) ∧
    List.Chain' (fun a b => interval ≤ b.timestamp - a.timestamp)
      (throttle_loop n hop_size sample_rate interval duration pf) := by
  obtain ⟨hb, hh, hc⟩ :=
    throttle_invariant hop_size sample_rate interval duration pf n 0 (-interval)
  exact ⟨hb, hh, hc⟩

/-! ### Claim theorems -/

/-- Claim C5: `parse_event_filter` splits its input on commas, trims each
token, skips (with one warning each, non-fatally) every token that is not a
known event name or that names a transport event, and returns the set of the
remaining event types; in particular duplicates collapse,
`parse_event_filter "beat,onset,beat" = parse_event_filter "beat,onset"`,
and `parse_event_filter "beat,bogus,track.end" = {BEAT}` (two warnings). -/
theorem parse_event_filter_correct :
    (∀ csv t, t ∈ parse_event_filter csv ↔
      ∃ tok ∈ split_tokens csv, event_name_lookup tok = some t ∧
        is_transport_event t = false) ∧
    (∀ csv, parse_warning_count csv = (split_tokens csv).countP token_skipped) ∧
    parse_event_filter ("beat,onset,beat") = parse_event_filter ("beat,onset") ∧
    parse_event_filter ("beat,bogus,track.end") = {EventType.BEAT} ∧
    parse_warning_count ("beat,bogus,track.end") = 2 := by
  refine ⟨?_, ?_, by decide, by decide, by decide⟩
  · intro csv t
    unfold parse_event_filter
    rw [parse_foldl_mem]
    simp
  · intro csv
    unfold parse_warning_count
    rw [parse_foldl_warn]
    simp

/-- Witness for C5 at a concrete input. -/
theorem parse_event_filter_correct_witness :
    EventType.BEAT ∈ parse_event_filter ("beat,bogus,track.end") :=
  (parse_event_filter_correct.1 ("beat,bogus,track.end") EventType.BEAT).mpr
    ⟨("beat"), by decide, by decide, by decide⟩

/-- Claim C7 (code evaluation at the failing input): when the interruption
flag is first observed at the post-wait check of the final timeline event,
the loop body `continue`s, the `for` loop ends, and no TRACK_ABORT envelope
is ever handed to the transport — the sent list is empty, although the spec
requires exactly one abort.  With a further event remaining the abort is
emitted by the next iteration (second conjunct), which is what the code
comment "will be caught at top of loop" assumes — falsely for the final
event. -/
theorem emitter_last_event_interrupt_no_abort :
    (emitter_play sched_wait0 0 [⟨0, .beat 0⟩] = [] ∧
      abort_count (emitter_play sched_wait0 0 [⟨0, .beat 0⟩]) = 0) ∧
    emitter_play sched_wait0 0 [⟨0, .beat 0⟩, ⟨5, .beat (1/2)⟩] =
      [⟨5, .trackAbort "user_interrupt"⟩] := by
  refine ⟨⟨by decide, by decide⟩, by with_unfolding_all decide⟩

/-- Claim C8: with unicast fallback enabled, an empty unicast target and a
failed gateway lookup, `Transport`'s constructor logs exactly one warning
and disables unicast for the run, and every subsequent send still delivers
the payload to the multicast destination with zero unicast sends. -/
theorem transport_unicast_fallback_disabled (cfg : Config) (gateway : String)
    (hen : cfg.enable_unicast = true) (htgt : cfg.unicast_target = "")
    (hgw : gateway = "") :
    (transport_init cfg gateway).warning_count = 1 ∧
    (transport_init cfg gateway).unicast_enabled = false ∧
    ∀ payload, transport_send (transport_init cfg gateway) payload =
      [(SendDest.multicast cfg.multicast_group, payload)] := by
  have hinit : transport_init cfg gateway =
      { unicast_enabled := false, warning_count := 1,
        multicast_group := cfg.multicast_group, unicast_endpoint := "" } := by
    simp [transport_init, hen, htgt, hgw]
  refine ⟨by rw [hinit], by rw [hinit], ?_⟩
  intro payload
  rw [hinit]
  simp [transport_send]

/-- Witness for C8 at a concrete configuration. -/
theorem transport_unicast_fallback_disabled_witness :
    (transport_init cfg_unicast ("")).warning_count = 1 ∧
    (transport_init cfg_unicast ("")).unicast_enabled = false ∧
    transport_send (transport_init cfg_unicast ("")) ("x") =
      [(SendDest.multicast cfg_unicast.multicast_group, ("x"))] := by
  obtain ⟨h1, h2, h3⟩ :=
    transport_unicast_fallback_disabled cfg_unicast ("") rfl rfl rfl
  exact ⟨h1, h2, h3 ("x")⟩

/-- Claim C9 counterexample: on the empty segmentation vector the `size_t`
bound `size() - 1` wraps around to 2^64 - 1, so the loop reads
`segmentation[1]`, which is out of bounds (¬ 1 < 0). -/
theorem seg_loop_empty_vector_cex : seg_loop_accessed 0 1 ∧ ¬(1 < 0) := by
  refine ⟨⟨le_refl 1, ?_⟩, by omega⟩
  show 1 < seg_loop_bound 0
  norm_num [seg_loop_bound, SIZE_T_MOD]

/-- Claim C9 amended: for every segmentation result vector with at least one
element, the interior-boundary loop accesses only in-bounds indices; the
empty vector is the single exception, where the unsigned bound underflows. -/
theorem seg_loop_inbounds (n i : Nat) (hn : 1 ≤ n) (hn2 : n ≤ SIZE_T_MOD)
    (hacc : seg_loop_accessed n i) : i < n := by
  obtain ⟨h1, h2⟩ := hacc
  unfold seg_loop_bound at h2
  have he : n + SIZE_T_MOD - 1 = SIZE_T_MOD + (n - 1) := by omega
  rw [he, Nat.add_mod_left, Nat.mod_eq_of_lt (by omega)] at h2
  omega

/-- Witness for the amended C9 at a concrete vector size. -/
theorem seg_loop_inbounds_witness :
    (1 ≤ 5 ∧ 5 ≤ SIZE_T_MOD ∧ seg_loop_accessed 5 2) ∧ 2 < 5 :=
  ⟨⟨by decide, by norm_num [SIZE_T_MOD], by norm_num [seg_loop_accessed,
      seg_loop_bound, SIZE_T_MOD]⟩,
    seg_loop_inbounds 5 2 (by decide) (by norm_num [SIZE_T_MOD])
      (by norm_num [seg_loop_accessed, seg_loop_bound, SIZE_T_MOD])⟩

/-- Claim C3: in both throttled builders, a frame at time
`t = frameIndex × hopSize / sampleRate` is emitted only when `t` minus the
last emitted timestamp (initially `-I`) is at least the interval `I`, no
event with `t > duration` is emitted, and consecutive emitted timestamps of
the stream differ by at least `I`. -/
theorem throttled_builders_correct (vals : List ℚ) (frames : List (List ℚ))
    (cfg : Config) (duration : ℚ) (mkR : ℚ → EventPayload)
    (mkV : List ℚ → EventPayload) :
    ((∀ e ∈ build_throttled_real_events (some vals) cfg duration mkR,
        e.timestamp ≤ duration ∧ ∃ j : ℕ,
          e.timestamp = frame_to_time (j : ℤ) cfg.hop_size cfg.sample_rate) ∧
      (∀ e, (build_throttled_real_events (some vals) cfg duration mkR).head? =
          some e →
        cfg.continuous_interval ≤ e.timestamp - (-cfg.continuous_interval)) ∧
      List.Chain'
        (fun a b => cfg.continuous_interval ≤ b.timestamp - a.timestamp)
        (build_throttled_real_events (some vals) cfg duration mkR)) ∧
    ((∀ e ∈ build_throttled_vector_events (some frames) cfg duration mkV,
        e.timestamp ≤ duration ∧ ∃ j : ℕ,
          e.timestamp = frame_to_time (j : ℤ) cfg.hop_size cfg.sample_rate) ∧
      (∀ e, (build_throttled_vector_events (some frames) cfg duration mkV).head? =
          some e →
        cfg.continuous_interval ≤ e.timestamp - (-cfg.continuous_interval)) ∧
      List.Chain'
        (fun a b => cfg.continuous_interval ≤ b.timestamp - a.timestamp)
        (build_throttled_vector_events (some frames) cfg duration mkV)) := by
  constructor
  · simp only [build_throttled_real_events]
    split
    · refine ⟨?_, ?_, ?_⟩ <;> simp
    · exact throttle_loop_correct _ _ _ _ _ _
  · simp only [build_throttled_vector_events]
    split
    · refine ⟨?_, ?_, ?_⟩ <;> simp
    · exact throttle_loop_correct _ _ _ _ _ _

/-- Witness for C3 at a concrete stream. -/
theorem throttled_builders_correct_witness :
    (⟨0, EventPayload.energy 5⟩ : TimelineEvent).timestamp ≤ 10 ∧
      ∃ j : ℕ, (⟨0, EventPayload.energy 5⟩ : TimelineEvent).timestamp =
        frame_to_time (j : ℤ) (cfg_simple ∅).hop_size (cfg_simple ∅).sample_rate :=
  (throttled_builders_correct [5] [] (cfg_simple ∅) 10
      EventPayload.energy EventPayload.mfcc).1.1
    ⟨0, EventPayload.energy 5⟩ (by with_unfolding_all decide)

/-- Claim C6: when the (last reported) silence→sound transition time exceeds
0.05 s, the leading block emits silence-start@0, silence-end@startTime and
gap{duration = startTime}@0, each gated on its own filter membership;
symmetrically, when the sound→silence transition time is more than 0.05 s
before the total duration, the trailing block emits silence-start@stopTime,
silence-end@duration and gap{duration − stopTime}@stopTime. -/
theorem silence_builder_emissions (pool : PoolData) (filter : EventFilter)
    (cfg : Config) (duration : ℚ) (starts stops : List ℤ)
    (hhop : 0 < cfg.hop_size) (hsr : 0 < cfg.sample_rate)
    (hstarts : pool.silence_startFrame = some starts)
    (hstops : pool.silence_stopFrame = some stops)
    (hnes : starts ≠ []) (hnet : stops ≠ []) :
    (frame_to_time ((starts.getLast?).getD 0) cfg.hop_size cfg.sample_rate >
        1/20 →
      (EventType.SILENCE_START ∈ filter →
        (⟨0, .silenceStart⟩ : TimelineEvent) ∈
          build_silence_events pool filter cfg duration) ∧
      (EventType.SILENCE_END ∈ filter →
        (⟨frame_to_time ((starts.getLast?).getD 0) cfg.hop_size cfg.sample_rate,
            .silenceEnd⟩ : TimelineEvent) ∈
          build_silence_events pool filter cfg duration) ∧
      (EventType.GAP ∈ filter →
        (⟨0, .gap (frame_to_time ((starts.getLast?).getD 0) cfg.hop_size
            cfg.sample_rate)⟩ : TimelineEvent) ∈
          build_silence_events pool filter cfg duration)) ∧
    (frame_to_time ((stops.getLast?).getD 0) cfg.hop_size cfg.sample_rate <
        duration - 1/20 →
      (EventType.SILENCE_START ∈ filter →
        (⟨frame_to_time ((stops.getLast?).getD 0) cfg.hop_size cfg.sample_rate,
            .silenceStart⟩ : TimelineEvent) ∈
          build_silence_events pool filter cfg duration) ∧
      (EventType.SILENCE_END ∈ filter →
        (⟨duration, .silenceEnd⟩ : TimelineEvent) ∈
          build_silence_events pool filter cfg duration) ∧
      (EventType.GAP ∈ filter →
        (⟨frame_to_time ((stops.getLast?).getD 0) cfg.hop_size cfg.sample_rate,
            .gap (duration - frame_to_time ((stops.getLast?).getD 0)
              cfg.hop_size cfg.sample_rate)⟩ : TimelineEvent) ∈
          build_silence_events pool filter cfg duration)) := by
  have hguard2 : ¬(starts = [] ∨ stops = []) := fun h => h.elim hnes hnet
  constructor
  · intro hcond
    have hf0 : (starts.getLast?).getD 0 > 0 := by
      by_contra hneg
      push_neg at hneg
      have hle : frame_to_time ((starts.getLast?).getD 0) cfg.hop_size
          cfg.sample_rate ≤ 0 := by
        unfold frame_to_time
        apply div_nonpos_of_nonpos_of_nonneg
        · apply mul_nonpos_of_nonpos_of_nonneg
          · exact_mod_cast hneg
          · exact_mod_cast le_of_lt hhop
        · exact_mod_cast le_of_lt hsr
      linarith
    refine ⟨?_, ?_, ?_⟩ <;> intro hmem <;>
      simp only [build_silence_events, hstarts, hstops] <;>
      rw [if_neg (not_not_intro (by tauto)), if_neg hguard2] <;>
      refine List.mem_append.mpr (Or.inl ?_) <;>
      rw [if_pos ⟨hf0, hcond⟩]
    · exact List.mem_append.mpr (Or.inl (List.mem_append.mpr (Or.inl
        (by rw [if_pos hmem]; exact List.mem_singleton.mpr rfl))))
    · exact List.mem_append.mpr (Or.inl (List.mem_append.mpr (Or.inr
        (by rw [if_pos hmem]; exact List.mem_singleton.mpr rfl))))
    · exact List.mem_append.mpr (Or.inr
        (by rw [if_pos hmem]; exact List.mem_singleton.mpr rfl))
  · intro hcond
    refine ⟨?_, ?_, ?_⟩ <;> intro hmem <;>
      simp only [build_silence_events, hstarts, hstops] <;>
      rw [if_neg (not_not_intro (by tauto)), if_neg hguard2] <;>
      refine List.mem_append.mpr (Or.inr ?_) <;>
      rw [if_pos hcond]
    · exact List.mem_append.mpr (Or.inl (List.mem_append.mpr (Or.inl
        (by rw [if_pos hmem]; exact List.mem_singleton.mpr rfl))))
    · exact List.mem_append.mpr (Or.inl (List.mem_append.mpr (Or.inr
        (by rw [if_pos hmem]; exact List.mem_singleton.mpr rfl))))
    · exact List.mem_append.mpr (Or.inr
        (by rw [if_pos hmem]; exact List.mem_singleton.mpr rfl))

/-- Witness for C6 at the Scenario B inputs (2 s leading and trailing
silence in a 10 s file at unit hop/sample-rate). -/
theorem silence_builder_emissions_witness :
    (⟨0, EventPayload.silenceStart⟩ : TimelineEvent) ∈
      build_silence_events pool_silence
        {EventType.SILENCE_START, EventType.SILENCE_END, EventType.GAP}
        (cfg_simple {EventType.SILENCE_START, EventType.SILENCE_END,
          EventType.GAP}) 10 ∧
    (⟨10, EventPayload.silenceEnd⟩ : TimelineEvent) ∈
      build_silence_events pool_silence
        {EventType.SILENCE_START, EventType.SILENCE_END, EventType.GAP}
        (cfg_simple {EventType.SILENCE_START, EventType.SILENCE_END,
          EventType.GAP}) 10 := by
  obtain ⟨hlead, htrail⟩ := silence_builder_emissions pool_silence
    {EventType.SILENCE_START, EventType.SILENCE_END, EventType.GAP}
    (cfg_simple {EventType.SILENCE_START, EventType.SILENCE_END, EventType.GAP})
    10 [2] [8] (by decide) (by decide) rfl rfl (by decide) (by decide)
  constructor
  · exact (hlead (by with_unfolding_all decide)).1 (by decide)
  · exact (htrail (by with_unfolding_all decide)).2.1 (by decide)

/-- Claim C10: every TRACK_START event in a timeline returned by `analyze`
reports `channels = 1` regardless of the input file's actual channel count,
and its filename, duration and sample-rate fields equal the configured input
path, the measured duration and the configured sample rate; it sits at
timestamp 0. -/
theorem track_start_fields (cfg : Config) (pool : PoolData) (duration : ℚ)
    (out : Timeline) (e : TimelineEvent)
    (hout : analyze_rel cfg pool duration out) (he : e ∈ out)
    (hts : is_track_start e.payload = true) :
    e = (⟨0, .trackStart cfg.input_file duration cfg.sample_rate 1⟩ :
      TimelineEvent) := by
  have hmem : e ∈ assemble_timeline cfg pool duration := hout.1.mem_iff.mp he
  have htype : event_type_of e.payload = EventType.TRACK_START :=
    (is_track_start_iff e.payload).mp hts
  have htrans : is_transport_event (event_type_of e.payload) = true := by
    rw [htype]; rfl
  rcases assemble_timeline_cases cfg pool duration e hmem with
    (h | h | h | h | h | h | h | h | h | h | h | h | h | h)
  · rcases List.mem_singleton.mp h with rfl
    rfl
  · exact absurd htrans (by simp [(build_beat_events_types _ _ e h).2])
  · exact absurd htrans (by simp [(build_onset_events_types _ _ e h).2])
  · exact absurd htrans (by simp [(build_silence_events_types _ _ _ _ e h).2])
  · exact absurd htrans (by simp [(build_loudness_events_types _ _ _ _ e h).2])
  · exact absurd htrans (by simp [(build_energy_events_types _ _ _ _ e h).2])
  · exact absurd htrans (by simp [(build_spectral_events_types _ _ _ _ e h).2])
  · exact absurd htrans (by simp [(build_band_events_types _ _ _ _ e h).2])
  · exact absurd htrans (by simp [(build_tonal_events_types _ _ _ _ e h).2])
  · exact absurd htrans (by simp [(build_pitch_events_types _ _ _ _ e h).2])
  · exact absurd htrans (by simp [(build_melody_events_types _ _ _ _ e h).2])
  · exact absurd htrans (by simp [(build_segmentation_events_types _ _ _ _ e h).2])
  · rcases List.mem_map.mp h with ⟨t, ht, rfl⟩
    simp [event_type_of] at htype
  · rcases List.mem_singleton.mp h with rfl
    simp [event_type_of] at htype

/-- Witness for C10 at a concrete run. -/
theorem track_start_fields_witness :
    track_start_event (cfg_simple ∅) 0 =
      (⟨0, .trackStart (cfg_simple ∅).input_file 0 (cfg_simple ∅).sample_rate 1⟩ :
        TimelineEvent) :=
  track_start_fields (cfg_simple ∅) {} 0
    [track_start_event (cfg_simple ∅) 0, ⟨0, .trackEnd⟩]
    (track_start_event (cfg_simple ∅) 0)
    (by constructor
        · with_unfolding_all decide
        · with_unfolding_all decide)
    (by with_unfolding_all decide) rfl

/-- Claim C4: for every filter and every event `e` of a timeline returned by
`analyze`, if `e`'s type is neither in the filter nor a transport type, then
`e` does not appear — equivalently, every event present is of a transport
type or of a type in the filter. -/
theorem analyze_filter_absence (cfg : Config) (pool : PoolData) (duration : ℚ)
    (out : Timeline) (hout : analyze_rel cfg pool duration out) :
    ∀ e ∈ out, is_transport_event (event_type_of e.payload) = false →
      event_type_of e.payload ∈ cfg.enabled_events := by
  intro e he hnt
  have hmem : e ∈ assemble_timeline cfg pool duration := hout.1.mem_iff.mp he
  rcases assemble_timeline_types cfg pool duration e hmem with h | h
  · exact h
  · rw [hnt] at h
    cases h

/-- Witness for C4 at a concrete run. -/
theorem analyze_filter_absence_witness :
    event_type_of (EventPayload.beat 0) ∈
      ({EventType.BEAT} : EventFilter) := by
  have h := analyze_filter_absence (cfg_simple {EventType.BEAT}) pool_beat0 1
    (assemble_timeline (cfg_simple {EventType.BEAT}) pool_beat0 1)
    (by constructor
        · exact List.Perm.refl _
        · with_unfolding_all decide)
    ⟨0, EventPayload.beat 0⟩ (by with_unfolding_all decide) rfl
  exact h

/-- Claim C2 counterexample: `analyze`'s final sort is `std::sort`, whose
contract does not preserve the order of equal-timestamp events.  On a pool
with one beat tick at t = 0, the assembled timeline pushes TRACK_START@0
before BEAT@0 (insertion order), yet the swapped output is also a valid
result of the sort — so "ties are broken by insertion order" does not hold
of the code. -/
theorem analyze_sort_unstable_cex :
    analyze_rel (cfg_simple {EventType.BEAT}) pool_beat0 1
        [⟨0, .beat 0⟩, track_start_event (cfg_simple {EventType.BEAT}) 1,
          ⟨1, .trackEnd⟩] ∧
    (assemble_timeline (cfg_simple {EventType.BEAT}) pool_beat0 1)[0]? =
      some (track_start_event (cfg_simple {EventType.BEAT}) 1) ∧
    (assemble_timeline (cfg_simple {EventType.BEAT}) pool_beat0 1)[1]? =
      some ⟨0, .beat 0⟩ ∧
    ([⟨0, .beat 0⟩, track_start_event (cfg_simple {EventType.BEAT}) 1,
        ⟨1, .trackEnd⟩] : Timeline)[0]? = some ⟨0, .beat 0⟩ ∧
    ([⟨0, .beat 0⟩, track_start_event (cfg_simple {EventType.BEAT}) 1,
        ⟨1, .trackEnd⟩] : Timeline)[1]? =
      some (track_start_event (cfg_simple {EventType.BEAT}) 1) ∧
    (track_start_event (cfg_simple {EventType.BEAT}) 1).timestamp =
      (⟨0, EventPayload.beat 0⟩ : TimelineEvent).timestamp ∧
    track_start_event (cfg_simple {EventType.BEAT}) 1 ≠ ⟨0, .beat 0⟩ := by
  refine ⟨⟨?_, ?_⟩, ?_, ?_, ?_, ?_, ?_, ?_⟩ <;> with_unfolding_all decide

/-- Claim C2 amended: the final step sorts the assembled timeline by
timestamp ascending — every possible output is a permutation of the
assembled events with non-decreasing timestamps, at least one such output
exists, and the sorted timestamp sequence is uniquely determined — but the
sort is `std::sort`, not a stable sort, so the relative order of
equal-timestamp events is unspecified rather than tied to insertion
order. -/
theorem analyze_sort_amended (cfg : Config) (pool : PoolData) (duration : ℚ) :
    (∃ out, analyze_rel cfg pool duration out) ∧
    (∀ out, analyze_rel cfg pool duration out →
      out.Perm (assemble_timeline cfg pool duration) ∧
      out.Sorted (fun a b => a.timestamp ≤ b.timestamp)) ∧
    (∀ out1 out2, analyze_rel cfg pool duration out1 →
      analyze_rel cfg pool duration out2 →
      out1.map TimelineEvent.timestamp = out2.map TimelineEvent.timestamp) := by
  refine ⟨sort_spec_exists _, fun out h => ⟨h.1, h.2⟩, ?_⟩
  intro out1 out2 h1 h2
  have hperm : (out1.map TimelineEvent.timestamp).Perm
      (out2.map TimelineEvent.timestamp) := (h1.1.trans h2.1.symm).map _
  have hs1 : (out1.map TimelineEvent.timestamp).Sorted (· ≤ ·) :=
    List.pairwise_map.mpr h1.2
  have hs2 : (out2.map TimelineEvent.timestamp).Sorted (· ≤ ·) :=
    List.pairwise_map.mpr h2.2
  exact List.eq_of_perm_of_sorted hperm hs1 hs2

/-- Witness for the amended C2 at a concrete run. -/
theorem analyze_sort_amended_witness :
    ([⟨0, .beat 0⟩, track_start_event (cfg_simple {EventType.BEAT}) 1,
        ⟨1, .trackEnd⟩] : Timeline).Sorted
      (fun a b => a.timestamp ≤ b.timestamp) := by
  have h := (analyze_sort_amended (cfg_simple {EventType.BEAT}) pool_beat0 1).2.1
    [⟨0, .beat 0⟩, track_start_event (cfg_simple {EventType.BEAT}) 1,
      ⟨1, .trackEnd⟩]
    (by constructor
        · with_unfolding_all decide
        · with_unfolding_all decide)
  exact h.2

/-- Claim C1 counterexample: with a beat tick at t = 0, an output that places
BEAT@0 before TRACK_START@0 also satisfies the (unstable) sort contract of
`analyze`, so the first element of the returned timeline need not be the
TRACK_START event. -/
theorem analyze_first_event_cex :
    analyze_rel (cfg_simple {EventType.BEAT}) pool_beat0 1
        [⟨0, .beat 0⟩, track_start_event (cfg_simple {EventType.BEAT}) 1,
          ⟨1, .trackEnd⟩] ∧
    ([⟨0, .beat 0⟩, track_start_event (cfg_simple {EventType.BEAT}) 1,
        ⟨1, .trackEnd⟩] : Timeline).head? = some ⟨0, .beat 0⟩ ∧
    is_track_start (EventPayload.beat 0) = false := by
  refine ⟨⟨?_, ?_⟩, ?_, ?_⟩ <;> with_unfolding_all decide

/-- Claim C1 amended: for analyzable inputs, every timeline returned by
`analyze` contains TRACK_START at timestamp 0 and TRACK_END at the measured
duration, its first event has timestamp 0 and its last event has timestamp
equal to the duration; because the final sort is unstable, TRACK_START and
TRACK_END themselves are only guaranteed to be first and last up to
reordering among events sharing those timestamps. -/
theorem analyze_endpoints_amended (cfg : Config) (pool : PoolData)
    (duration : ℚ) (out : Timeline)
    (hin : analyzable_inputs cfg pool duration)
    (hout : analyze_rel cfg pool duration out) :
    track_start_event cfg duration ∈ out ∧
    (⟨duration, .trackEnd⟩ : TimelineEvent) ∈ out ∧
    (∀ e, out.head? = some e → e.timestamp = 0) ∧
    (∀ e, out.getLast? = some e → e.timestamp = duration) := by
  have hstartA : track_start_event cfg duration ∈
      assemble_timeline cfg pool duration := by
    simp [assemble_timeline]
  have hendA : (⟨duration, .trackEnd⟩ : TimelineEvent) ∈
      assemble_timeline cfg pool duration := by
    simp [assemble_timeline]
  have hstart : track_start_event cfg duration ∈ out := hout.1.mem_iff.mpr hstartA
  have hend : (⟨duration, .trackEnd⟩ : TimelineEvent) ∈ out :=
    hout.1.mem_iff.mpr hendA
  have hbounds : ∀ e ∈ out, BoundedBy duration e := fun e he =>
    assemble_timeline_bounds hin e (hout.1.mem_iff.mp he)
  refine ⟨hstart, hend, ?_, ?_⟩
  · intro e hh
    cases hq : out with
    | nil => rw [hq] at hh; cases hh
    | cons hd tl =>
      rw [hq, List.head?_cons, Option.some_inj] at hh
      subst hh
      have hsorted := hout.2
      rw [hq] at hsorted
      have h0 : 0 ≤ hd.timestamp :=
        (hbounds hd (by rw [hq]; exact List.mem_cons_self hd tl)).1
      rw [hq] at hstart
      rcases List.mem_cons.mp hstart with heq | hmem
      · rw [← heq]
        rfl
      · have hle : hd.timestamp ≤ (track_start_event cfg duration).timestamp :=
          (List.sorted_cons.mp hsorted).1 _ hmem
        have h1 : (track_start_event cfg duration).timestamp = 0 := rfl
        linarith
  · intro e hh
    have hh2 : out.reverse.head? = some e := by
      rw [List.head?_reverse]
      exact hh
    have hrevsorted : out.reverse.Pairwise
        (fun a b => b.timestamp ≤ a.timestamp) :=
      List.pairwise_reverse.mpr hout.2
    cases hq : out.reverse with
    | nil => rw [hq] at hh2; cases hh2
    | cons hd tl =>
      rw [hq, List.head?_cons, Option.some_inj] at hh2
      subst hh2
      have hmem_out : hd ∈ out := by
        rw [← List.mem_reverse, hq]
        exact List.mem_cons_self hd tl
      have hub : hd.timestamp ≤ duration := (hbounds hd hmem_out).2
      have hendrev : (⟨duration, .trackEnd⟩ : TimelineEvent) ∈ out.reverse :=
        List.mem_reverse.mpr hend
      rw [hq] at hendrev hrevsorted
      rcases List.mem_cons.mp hendrev with heq | hmem
      · rw [← heq]
      · have hge : (⟨duration, .trackEnd⟩ : TimelineEvent).timestamp ≤
            hd.timestamp := (List.pairwise_cons.mp hrevsorted).1 _ hmem
        have h1 : (⟨duration, .trackEnd⟩ : TimelineEvent).timestamp = duration :=
          rfl
        linarith

/-- Witness for the amended C1 at a concrete run. -/
theorem analyze_endpoints_amended_witness :
    track_start_event (cfg_simple ∅) 0 ∈
      ([track_start_event (cfg_simple ∅) 0, ⟨0, .trackEnd⟩] : Timeline) ∧
    (track_start_event (cfg_simple ∅) 0).timestamp = 0 := by
  obtain ⟨h1, h2, h3, h4⟩ := analyze_endpoints_amended (cfg_simple ∅) {} 0
    [track_start_event (cfg_simple ∅) 0, ⟨0, .trackEnd⟩]
    (by refine ⟨by decide, by decide, le_refl 0, ?_, ?_, ?_, ?_⟩ <;> simp)
    (by constructor
        · with_unfolding_all decide
        · with_unfolding_all decide)
  exact ⟨h1, h3 _ rfl⟩

end Tracks
